import Mathlib

/-!
Verification development for the trade-aggregation chart core
(`src/src/utils/counter.ts`): the Sliding-Window `Counter` class and the
`ChartController` class (bar aggregation, chunk cache interaction, series
computation).  The TypeScript is shallowly embedded: JavaScript numbers are
modelled by `ℚ` (counts by `ℕ`), `undefined`/`null`-able fields by `Option`,
JavaScript objects keyed by strings by ordered association lists, `setTimeout`
driven slot expiry by an explicit pending-timer count, and thrown `TypeError`s
by `Except.error`.
-/

namespace AggrModel

/-- Association-list read, modelling a JavaScript property read `obj[k]`
(`none` is `undefined`). -/
def alGet (k : String) : List (String × β) → Option β
  | [] => none
  | (k', v) :: rest => if k' = k then some v else alGet k rest

/-- Association-list write `obj[k] = v`: replaces the value in place when the
key exists, appends otherwise (JavaScript insertion order). -/
def alSet (k : String) (v : β) : List (String × β) → List (String × β)
  | [] => [(k, v)]
  | (k', v') :: rest => if k' = k then (k, v) :: rest else (k', v') :: alSet k v rest

/-- Association-list update of an existing key, `obj[k] = f obj[k]`; identity
when the key is absent. -/
def alUpdate (k : String) (f : β → β) : List (String × β) → List (String × β)
  | [] => []
  | (k', v) :: rest => if k' = k then (k', f v) :: rest else (k', v) :: alUpdate k f rest

/-- Association-list delete, modelling `delete obj[k]`. -/
def alRemove (k : String) (l : List (String × β)) : List (String × β) :=
  l.filter (fun p => p.1 ≠ k)

/-- JavaScript truthiness of a possibly-`undefined` number
(`undefined` and `0` are falsy). -/
def jsTruthy : Option ℚ → Bool
  | none => false
  | some q => q != 0

namespace Counter

/-- Configuration of the sliding-window `Counter` (`this.window` and
`this.granularity`, both in milliseconds, fixed at construction). -/
structure Config where
  window : ℕ
  granularity : ℕ
deriving DecidableEq, Repr

/-- Mutable state of a `Counter` instance: `stacks'`, `live`, `filled`,
`remaining` (`none` models `undefined`, as after `this.remaining =
this.stacks[0]` on an empty array), `timestamp`, and the number of pending
`setTimeout(this.shiftStack.bind(this), this.window)` timers
(`this.timeouts.length`). -/
structure State where
  stacks' : List ℚ
  live : ℚ
  filled : Bool
  remaining : Option ℚ
  timestamp : ℕ
  timeouts : ℕ
deriving DecidableEq, Repr

/-- `clear()`: drops all slots, resets the live sum and cancels every pending
expiry timer. -/
def clear : State :=
  { stacks' := [], live := 0, filled := false, remaining := some 0
    timestamp := 0, timeouts := 0 }

/-- `addData(data)`: `this.stacks'[this.stacks'.length - 1] += data; this.live += data`.
On an empty `stacks'` the indexed write targets index `-1` and leaves the array
unchanged in JavaScript; `onStats` always appends a slot first. -/
def addData (data : ℚ) (s : State) : State :=
  { s with
    stacks' := match s.stacks'.reverse with
      | [] => s.stacks'
      | last :: revRest => ((last + data) :: revRest).reverse
    live := s.live + data }

/-- `appendStack(timestamp)`: pushes a fresh zero slot, records the slot start
time (`+new Date()`, modelled by `now`, when the argument is falsy), schedules
one `shiftStack` expiry, and marks the window `filled` once
`this.stacks'.length === this.window / this.granularity` (a JavaScript float
division, hence the `ℚ` comparison). -/
def appendStack (cfg : Config) (now ts : ℕ) (s : State) : State :=
  let t := if ts = 0 then now else ts
  let stacks' := s.stacks' ++ [0]
  { s with
    stacks' := stacks'
    timestamp := t
    timeouts := s.timeouts + 1
    filled :=
      if !s.filled && ((stacks'.length : ℚ) == (cfg.window : ℚ) / (cfg.granularity : ℚ))
      then true else s.filled }

/-- `shiftStack()`: one slot-expiry timer fires.  The pending timer and the
oldest slot are shifted off; a falsy (zero) slot returns early; otherwise the
previously recorded `remaining` is subtracted from `live` (when truthy) and
`remaining` becomes the new oldest slot's value (`undefined` when none is
left).  The line `this.live -= stack` is commented out in the source. -/
def shiftStack (s : State) : State :=
  let timeouts := s.timeouts - 1
  match s.stacks' with
  | [] => { s with timeouts := timeouts }
  | stack :: rest =>
    if stack == 0 then { s with timeouts := timeouts, stacks' := rest }
    else
      let live := if jsTruthy s.remaining then s.live - s.remaining.getD 0 else s.live
      { s with timeouts := timeouts, stacks' := rest, live := live, remaining := rest.head? }

/-- `onStats(timestamp, stats)` with `value = this.outputFunction(stats)`
already projected by the caller-supplied output function: opens a new slot when
none exists or the granularity span elapsed, otherwise (once `filled`, with a
truthy `remaining`) linearly interpolates the evicting slot's estimated
remaining contribution; finally folds the value in via `addData`. -/
def onStats (cfg : Config) (now ts : ℕ) (value : ℚ) (s : State) : State :=
  let s :=
    if s.stacks'.length == 0 || decide (s.timestamp + cfg.granularity < ts) then
      appendStack cfg now ts s
    else if s.filled && jsTruthy s.remaining then
      let p : ℚ := ((ts : ℚ) - (s.timestamp : ℚ)) / (cfg.granularity : ℚ)
      let remaining : ℚ := (⌈(s.stacks'.headD 0) * (1 - p)⌉ : ℤ)
      let change := s.remaining.getD 0 - remaining
      { s with remaining := some remaining, live := s.live - change }
    else s
  addData value s

/-- `getValue()`: the live sum of all non-evicted slots. -/
def getValue (s : State) : ℚ :=
  s.live

/-- `updateSerie()`: the point pushed to the counter's own line serie, or
`none` when the update is skipped (`!this.serie || !this.timestamp ||
(this.type === 'histogram' && !value)`). -/
def updateSerie (hasSerie : Bool) (type_ : String) (s : State) : Option (ℚ × ℚ) :=
  let value := getValue s
  if !hasSerie || s.timestamp == 0 || (type_ == "histogram" && value == 0) then
    none
  else
    some ((s.timestamp : ℚ) / 1000, value)

end Counter

/-! ## Chart controller data model -/

/-- Trade side (`trade.side` is the string `'buy'` or `'sell'`). -/
inductive Side
  | buy
  | sell
deriving DecidableEq, Repr

/-- A normalized trade record (`Trade`): exchange, pair, price, size, side,
liquidation flag and a millisecond timestamp. -/
structure Trade where
  exchange : String
  pair : String
  price : ℚ
  size : ℚ
  side : Side
  liquidation : Bool
  timestamp : ℕ
deriving DecidableEq, Repr

/-- One source's in-flight bar (`this.activeRenderer.sources[identifier]`),
with every field present as created by `resetBar` on the
`{ exchange, close }` seed object.  The source never stores a `pair` or
`timestamp` field on these objects. -/
structure SourceBar where
  exchange : String
  open_ : ℚ
  high : ℚ
  low : ℚ
  close : ℚ
  vbuy : ℚ
  vsell : ℚ
  lbuy : ℚ
  lsell : ℚ
  cbuy : ℕ
  csell : ℕ
  empty : Bool
deriving DecidableEq, Repr

/-- The combined bar under construction (`renderer.bar`).  `empty` and
`hasData` are `Option Bool` because the object literals in `createRenderer`
and `resetRendererBar` create them selectively (`none` models an absent
field, i.e. `undefined`). -/
structure CombinedBar where
  vbuy : ℚ
  vsell : ℚ
  lbuy : ℚ
  lsell : ℚ
  cbuy : ℕ
  csell : ℕ
  empty : Option Bool
  hasData : Option Bool
deriving DecidableEq, Repr

/-- A finished per-source bar as produced by `cloneSourceBar` (the `Bar`
records stored in chunks): exactly the fields the clone copies — no `empty`
flag is copied. -/
structure ChunkBar where
  exchange : String
  timestamp : ℕ
  open_ : ℚ
  high : ℚ
  low : ℚ
  close : ℚ
  vbuy : ℚ
  vsell : ℚ
  lbuy : ℚ
  lsell : ℚ
  cbuy : ℕ
  csell : ℕ
deriving DecidableEq, Repr

/-- A chunk of the chart cache: time range, `active` (still appended to) and
`rendered` (selected for display) flags, and the finished bars. -/
structure Chunk where
  from_ : ℕ
  to_ : ℕ
  active : Bool
  rendered : Bool
  bars : List ChunkBar
deriving DecidableEq, Repr

/-- A visible time range (seconds, already timezone-adjusted by
`getVisibleRange`). -/
structure TimeRange where
  from_ : ℚ
  to_ : ℚ
deriving DecidableEq, Repr

/-- A JavaScript numeric value as seen by the serie pipeline: a number,
`null`, or `NaN` (`isNaN(null)` is `false` in JavaScript, so the three are
kept distinct). -/
inductive JSValue
  | num (q : ℚ)
  | null
  | nan
deriving DecidableEq, Repr

/-- A serie's compiled output kind (`SerieTranspilationOutputType`):
`'value' | 'ohlc' | 'custom'`. -/
inductive OutType
  | value
  | ohlc
  | custom
deriving DecidableEq, Repr

/-- Persistent state of an `average_function` instruction: the bounded queue
`state.points`, the running `state.sum`, the entry `state.count`, and
`state.output`, the last output computed by the adapter. -/
structure AvgState where
  points : List ℚ
  sum : ℚ
  count : ℕ
  output : ℚ
deriving DecidableEq, Repr

/-- Persistent state of an `ohlc` instruction. -/
structure OhlcState where
  open_ : ℚ
  high : ℚ
  low : ℚ
  close : ℚ
deriving DecidableEq, Repr

/-- A compiled formula instruction (`SerieInstruction`), tagged by its
`type` string: `average_function` and `ohlc` live in a serie's `functions`
list, `array` in its `variables` list; anything else carries no
cross-bucket state that `nextBar` would touch. -/
inductive Instruction
  | average_function (arg : ℕ) (state : AvgState)
  | ohlc (state : OhlcState)
  | array (arg : ℕ) (state : List ℚ)
  | stateless (name : String)
deriving DecidableEq, Repr

/-- The value an adapter returns for one bucket, by output kind: a plain
value, an OHLC object, or a custom `{ value }` object. -/
inductive JSPoint
  | pval (v : JSValue)
  | pohlc (open_ high low close : JSValue)
  | pcustom (value : JSValue)
deriving DecidableEq, Repr

/-- A point as handed to the render sink (`{time, value}` or
`{time, open, high, low, close}` or a spread custom object). -/
inductive EmittedPoint
  | epValue (time : ℚ) (value : JSValue)
  | epOhlc (time : ℚ) (open_ high low close : JSValue)
  | epCustom (time : ℚ) (value : JSValue)
deriving DecidableEq, Repr

/-- Per-renderer serie state (`RendererSerieData`): last value, last point,
and the cloned instruction lists. -/
structure RendererSerieData where
  value : JSValue
  point : Option JSPoint
  functions : List Instruction
  variables' : List Instruction
deriving DecidableEq, Repr

/-- The mutable aggregation context (`Renderer`).  `sources` is the map the
realtime path writes (`renderer.sources[identifier]`); `exchanges` is the
map `renderBars` writes and `resetRendererBar` resets — the `Renderer`
interface declares only `sources`, and `createRenderer` never creates an
`exchanges` field, hence the `Option` (`none` models the absent field). -/
structure Renderer where
  timestamp : ℕ
  bar : CombinedBar
  sources : List (String × SourceBar)
  exchanges : Option (List (String × ChunkBar))
  series : List (String × RendererSerieData)
deriving DecidableEq, Repr

/-- A registered serie (`ActiveSerie`) as the controller uses it: id,
declared visual `type`, compiled output kind (`serie.model.type`), the
executable adapter, and the freshly cloned instruction state installed by
`bindSerie` (the clone of `serie.model.functions/variables` after
`updateInstructionsArgument`, both owned by the transpiler, which is outside
this file's sources, so they are taken as data).  The adapter receives the
renderer and the serie's instruction lists and returns the point together
with the instruction lists it mutated in place. -/
structure ActiveSerie where
  id : String
  type : String
  modelType : OutType
  adapter : Renderer → List Instruction → List Instruction →
    JSPoint × List Instruction × List Instruction
  initFunctions : List Instruction
  initVariables : List Instruction

/-- External configuration read from the settings/app store:
`store.state.settings.timeframe` (seconds),
`store.state.app.activeExchanges`, `store.state.settings.timezoneOffset`
(milliseconds) and the `MAX_BARS_PER_CHUNKS` constant. -/
structure Cfg where
  timeframe : ℕ
  activeExchanges : String → Bool
  timezoneOffset : ℤ
  maxBarsPerChunks : ℕ

/-- A `SET_SERIE_ERROR` store commit: serie id and message (`none` clears
the error). -/
abbrev SerieErrorEvent := String × Option String

/-- The point map `computeBar` returns for one closed bucket. -/
abbrev Points := List (String × EmittedPoint)

/-- The per-serie point sequences `renderBars` accumulates
(`computedSeries`). -/
abbrev Computed := List (String × List EmittedPoint)

/-- The chart controller's mutable state: the live renderer, the chunk
cache (`chartCache.chunks` plus its `cacheRange.to` high-water mark), the
index of the active chunk (`this.activeChunk` is a reference into the
cache, modelled by an index), the rendered range (initialized to
`{from: null, to: null}` by the owning component, which is outside this
file's sources) and the emitted `SET_SERIE_ERROR` events. -/
structure CState where
  activeRenderer : Option Renderer
  chunks : List Chunk
  activeChunk : Option ℕ
  cacheTo : Option ℕ
  renderedFrom : Option ℕ
  renderedTo : Option ℕ
  errors : List SerieErrorEvent
deriving DecidableEq, Repr

/-- In-place update of a list element, modelling a field assignment through
an object reference held in an array. -/
def listModify (f : α → α) : ℕ → List α → List α
  | _, [] => []
  | 0, a :: as => f a :: as
  | n + 1, a :: as => a :: listModify f n as

/-! ## Bar primitives -/

/-- `trade.exchange + trade.pair`, the key of the trade's source. -/
def tradeIdentifier (t : Trade) : String :=
  t.exchange ++ t.pair

/-- The trade's bucket timestamp,
`Math.floor(trade.timestamp / 1000 / timeframe) * timeframe` (seconds). -/
def bucketOf (cfg : Cfg) (t : Trade) : ℕ :=
  t.timestamp / 1000 / cfg.timeframe * cfg.timeframe

/-- `const amount = trade.price * trade.size`. -/
def tradeAmount (t : Trade) : ℚ :=
  t.price * t.size

/-- `resetBar(bar)`: carries `close` into `open/high/low`, zeroes every
volume and count, and sets `empty = false`. -/
def resetBar (b : SourceBar) : SourceBar :=
  { b with
    open_ := b.close, high := b.close, low := b.close
    vbuy := 0, vsell := 0, cbuy := 0, csell := 0, lbuy := 0, lsell := 0
    empty := false }

/-- The source bar created for a first-seen identifier:
`{ exchange: trade.exchange, close: +trade.price }` immediately passed
through `resetBar`, which determines every remaining field. -/
def newSourceBar (exchange : String) (price : ℚ) : SourceBar :=
  resetBar
    { exchange := exchange, open_ := price, high := price, low := price
      close := price, vbuy := 0, vsell := 0, lbuy := 0, lsell := 0
      cbuy := 0, csell := 0, empty := false }

/-- `cloneSourceBar(sourceBar, timestamp)`: copies the listed fields into a
fresh object, with the given timestamp (live source bars carry none of
their own). -/
def cloneSourceBar (b : SourceBar) (timestamp : ℕ) : ChunkBar :=
  { exchange := b.exchange, timestamp := timestamp
    open_ := b.open_, high := b.high, low := b.low, close := b.close
    vbuy := b.vbuy, vsell := b.vsell, lbuy := b.lbuy, lsell := b.lsell
    cbuy := b.cbuy, csell := b.csell }

/-- `cloneSourceBar(bar)` on an already-cloned chunk bar (no timestamp
argument: `timestamp || sourceBar.timestamp` keeps the bar's own). -/
def cloneChunkBar (b : ChunkBar) : ChunkBar :=
  { exchange := b.exchange, timestamp := b.timestamp
    open_ := b.open_, high := b.high, low := b.low, close := b.close
    vbuy := b.vbuy, vsell := b.vsell, lbuy := b.lbuy, lsell := b.lsell
    cbuy := b.cbuy, csell := b.csell }

/-- `resetBar` applied to an entry of `renderer.exchanges` (a cloned chunk
bar; the `empty = false` write would create a field the clone lacks and
nothing reads, so it has no counterpart here). -/
def resetChunkBar (b : ChunkBar) : ChunkBar :=
  { b with
    open_ := b.close, high := b.close, low := b.close
    vbuy := 0, vsell := 0, cbuy := 0, csell := 0, lbuy := 0, lsell := 0 }

/-! ## Instruction state transitions (`nextBar`) -/

/-- One function instruction's bucket-close transition inside `nextBar`:
`average_function` pushes `state.output`, adds it to the sum, bumps the
count, and when the count exceeds `arg` shifts the oldest entry off and
subtracts it; `ohlc` carries `close` into `open/high/low`.  (`points.shift()`
on an empty queue would yield `undefined` and a NaN sum in JavaScript; the
branch only fires with a nonempty queue since the count was just bumped.) -/
def stepFunctionInstruction : Instruction → Instruction
  | .average_function arg st =>
    let st1 : AvgState :=
      { points := st.points ++ [st.output], sum := st.sum + st.output
        count := st.count + 1, output := st.output }
    if st1.count > arg then
      .average_function arg
        { st1 with
          sum := st1.sum - st1.points.headD 0
          points := st1.points.tail
          count := st1.count - 1 }
    else
      .average_function arg st1
  | .ohlc st => .ohlc { open_ := st.close, high := st.close, low := st.close, close := st.close }
  | i => i

/-- One variable instruction's bucket-close transition inside `nextBar`:
`array` front-inserts a copy of its latest value (`state.unshift(state[0])`)
and pops from the back once the length exceeds `arg`. -/
def stepVariableInstruction : Instruction → Instruction
  | .array arg st =>
    let st1 := st.headD 0 :: st
    if st1.length > arg then .array arg st1.dropLast else .array arg st1
  | i => i

/-- The `nextBar` treatment of one serie's renderer state: every function
and variable instruction steps. -/
def nextBarSerieStep (d : RendererSerieData) : RendererSerieData :=
  { d with
    functions := d.functions.map stepFunctionInstruction
    variables' := d.variables'.map stepVariableInstruction }

/-- `resetRendererBar(renderer)`: installs a fresh combined bar
(`hasData: false`, and no `empty` field) and resets each bar of
`renderer.exchanges` — when that field exists at all; `renderer.sources` is
not touched. -/
def resetRendererBar (r : Renderer) : Renderer :=
  { r with
    bar :=
      { vbuy := 0, vsell := 0, cbuy := 0, csell := 0, lbuy := 0, lsell := 0
        empty := none, hasData := some false }
    exchanges := r.exchanges.map (List.map (fun p => (p.1, resetChunkBar p.2))) }

/-- `nextBar(timestamp, renderer)`: when the closing combined bar is not
flagged empty (`!renderer.bar.empty`; the flag is also truthy-false when
the field is absent), every bound serie's instructions step; then the
renderer adopts the new bucket timestamp and `resetRendererBar` runs. -/
def nextBar (activeSeries : List ActiveSerie) (timestamp : ℕ) (r : Renderer) : Renderer :=
  let r :=
    if r.bar.empty = some true then r
    else
      { r with
        series := activeSeries.foldl (fun m s =>
          match alGet s.id m with
          | none => m
          | some d => alUpdate s.id (fun _ => nextBarSerieStep d) m) r.series }
  resetRendererBar { r with timestamp := timestamp }

/-! ## Renderer creation and serie binding -/

/-- `bindSerie(serie, renderer)`: installs fresh per-renderer serie state
(`value: null, point: null`, cloned instruction lists) unless the renderer
already holds state for this id. -/
def bindSerieEntry (s : ActiveSerie) (m : List (String × RendererSerieData)) :
    List (String × RendererSerieData) :=
  match alGet s.id m with
  | some _ => m
  | none =>
    m ++ [(s.id,
      { value := JSValue.null, point := none
        functions := s.initFunctions, variables' := s.initVariables })]

/-- `createRenderer(firstBarTimestamp, series)`: a fresh renderer (empty
`sources`, no `exchanges` field, zeroed combined bar with neither `empty`
nor `hasData` fields) with each selected serie bound. -/
def createRenderer (activeSeries : List ActiveSerie) (firstBarTimestamp : ℕ)
    (filter' : Option (List String)) : Renderer :=
  { timestamp := firstBarTimestamp
    bar :=
      { vbuy := 0, vsell := 0, cbuy := 0, csell := 0, lbuy := 0, lsell := 0
        empty := none, hasData := none }
    sources := []
    exchanges := none
    series := activeSeries.foldl (fun m s =>
      match filter' with
      | some ids => if ids.contains s.id then bindSerieEntry s m else m
      | none => bindSerieEntry s m) [] }

/-! ## computeBar -/

/-- `serieData.value` as assigned from the adapter's point by output kind
(`point` itself, `point.close`, or `point.value`).  A shape mismatch reads
an object or `undefined`, which `isNaN` maps to `true`; it is modelled as
`nan`. -/
def valueOfPoint : OutType → JSPoint → JSValue
  | .value, .pval v => v
  | .ohlc, .pohlc _ _ _ c => c
  | .custom, .pcustom v => v
  | _, _ => .nan

/-- The point stored into `points[serie.id]` by output kind.  The mismatch
rows are unreachable for well-formed adapters and default to `nan`
components. -/
def emitPoint : OutType → ℚ → JSPoint → EmittedPoint
  | .value, time, .pval v => .epValue time v
  | .ohlc, time, .pohlc o h l c => .epOhlc time o h l c
  | .custom, time, .pcustom v => .epCustom time v
  | .value, time, _ => .epValue time .nan
  | .ohlc, time, _ => .epOhlc time .nan .nan .nan .nan
  | .custom, time, _ => .epCustom time .nan

/-- The serie loop of `computeBar`, processed in `activeSeries` order.
`aliased = true` models the live call `computeBar(this.activeRenderer)`,
where `unbindSerie(serie, this.activeRenderer)` deletes from the renderer
being iterated; with `aliased = false` (replay) the deletion applies to the
separate live renderer carried in `live`.  A serie surviving in
`activeSeries` without renderer state makes the property write
`serieData.point = …` throw. -/
def computeSerieStep (filter' : Option (List String)) (time : ℚ) (aliased : Bool)
    (base : Renderer)
    (acc : Points × List (String × RendererSerieData) × Option Renderer × List SerieErrorEvent)
    (s : ActiveSerie) :
    Except String
      (Points × List (String × RendererSerieData) × Option Renderer × List SerieErrorEvent) :=
  let (points, m, live, errors) := acc
  if (match filter' with | some ids => !ids.contains s.id | none => false) then
    .ok (points, m, live, errors)
  else
    match alGet s.id m with
    | none => .error ("TypeError: cannot set point of undefined serie data " ++ s.id)
    | some d =>
      let res := s.adapter { base with series := m } d.functions d.variables'
      let point := res.1
      let value := valueOfPoint s.modelType point
      let points1 := alSet s.id (emitPoint s.modelType time point) points
      let d1 : RendererSerieData :=
        { value := value, point := some point, functions := res.2.1, variables' := res.2.2 }
      let m1 := alUpdate s.id (fun _ => d1) m
      if value = JSValue.nan then
        let m2 := if aliased then alRemove s.id m1 else m1
        let live2 :=
          if aliased then live
          else live.map (fun lr => { lr with series := alRemove s.id lr.series })
        .ok (points1, m2, live2, errors ++ [(s.id, some (s.id ++ " is NaN"))])
      else if value = JSValue.null ∨ (s.type = "histogram" ∧ value = JSValue.num 0) then
        .ok (alRemove s.id points1, m1, live, errors)
      else
        .ok (points1, m1, live, errors)

def computeBarGo (filter' : Option (List String)) (time : ℚ) (aliased : Bool)
    (base : Renderer) (L : List ActiveSerie)
    (acc : Points × List (String × RendererSerieData) × Option Renderer × List SerieErrorEvent) :
    Except String
      (Points × List (String × RendererSerieData) × Option Renderer × List SerieErrorEvent) :=
  L.foldlM (computeSerieStep filter' time aliased base) acc

/-- `computeBar(renderer, series)`: evaluates every (selected) bound serie
on the closed bucket at display time
`renderer.timestamp + timezoneOffset / 1000`.  The loop mutates only the
renderer's `series` map (the current renderer seen by each adapter is the
base renderer with the partially updated map), so the result renderer is
the input with the final map installed. -/
def computeBar (cfg : Cfg) (activeSeries : List ActiveSerie)
    (filter' : Option (List String)) (r : Renderer) (aliased : Bool)
    (live : Option Renderer) :
    Except String (Points × Renderer × Option Renderer × List SerieErrorEvent) :=
  match computeBarGo filter' ((r.timestamp : ℚ) + (cfg.timezoneOffset : ℚ) / 1000)
      aliased r activeSeries ([], r.series, live, []) with
  | .error e => .error e
  | .ok (points, m, live', errors) => .ok (points, { r with series := m }, live', errors)

/-- The live call `computeBar(this.activeRenderer)` (no serie subset): the
renderer iterated and the renderer unbound from are the same object. -/
def computeBarLive (cfg : Cfg) (activeSeries : List ActiveSerie) (r : Renderer) :
    Except String (Points × Renderer × List SerieErrorEvent) :=
  match computeBar cfg activeSeries none r true none with
  | .error e => .error e
  | .ok (points, r', _, errors) => .ok (points, r', errors)

/-- The value `computeBar` classifies for serie `s` when its adapter runs
against renderer `r` with instruction state `fns`/`vars`
(`serieData.value` just before the `isNaN` test). -/
def serieValue (s : ActiveSerie) (r : Renderer) (fns vars : List Instruction) : JSValue :=
  valueOfPoint s.modelType (s.adapter r fns vars).1

/-- A serie whose adapter yields NaN on every input. -/
def alwaysNaN (s : ActiveSerie) : Prop :=
  ∀ r fns vars, serieValue s r fns vars = JSValue.nan

/-- A serie whose adapter never yields NaN. -/
def neverNaN (s : ActiveSerie) : Prop :=
  ∀ r fns vars, serieValue s r fns vars ≠ JSValue.nan

/-- A serie that always hits the point-omission branch of `computeBar`: its
value is `null`, or it is a histogram serie computing 0. -/
def alwaysOmitted (s : ActiveSerie) : Prop :=
  ∀ r fns vars, serieValue s r fns vars = JSValue.null ∨
    (s.type = "histogram" ∧ serieValue s r fns vars = JSValue.num 0)

/-! ## The realtime trade fold (`renderRealtimeTrades`) -/

/-- The liquidation update of a source bar:
`sources[identifier]['l' + trade.side] += amount`. -/
def addLiqSource (side : Side) (amount : ℚ) (b : SourceBar) : SourceBar :=
  match side with
  | .buy => { b with lbuy := b.lbuy + amount }
  | .sell => { b with lsell := b.lsell + amount }

/-- The liquidation mirror into the combined bar (active sources only):
`bar['l' + trade.side] += amount; bar.empty = false`. -/
def addLiqBar (side : Side) (amount : ℚ) (bar : CombinedBar) : CombinedBar :=
  match side with
  | .buy => { bar with lbuy := bar.lbuy + amount, empty := some false }
  | .sell => { bar with lsell := bar.lsell + amount, empty := some false }

/-- The non-liquidation update of a source bar: high/low/close refresh, then
`'c' + side` count and `'v' + side` volume increments. -/
def applyTradeSource (side : Side) (price amount : ℚ) (b : SourceBar) : SourceBar :=
  let b := { b with high := max b.high price, low := min b.low price, close := price }
  match side with
  | .buy => { b with cbuy := b.cbuy + 1, vbuy := b.vbuy + amount }
  | .sell => { b with csell := b.csell + 1, vsell := b.vsell + amount }

/-- The non-liquidation mirror into the combined bar (active sources only). -/
def applyTradeBar (side : Side) (amount : ℚ) (bar : CombinedBar) : CombinedBar :=
  match side with
  | .buy => { bar with vbuy := bar.vbuy + amount, cbuy := bar.cbuy + 1, empty := some false }
  | .sell => { bar with vsell := bar.vsell + amount, csell := bar.csell + 1, empty := some false }

/-- The per-trade accumulation of `renderRealtimeTrades` (everything after
the bucket-advance block): create the source bar if first seen, clear its
`empty` flag, then apply the liquidation or regular update, mirroring into
the combined bar when `store.state.app.activeExchanges[identifier]` is
truthy. -/
def foldTradeIntoRenderer (cfg : Cfg) (trade : Trade) (r : Renderer) : Renderer :=
  let identifier := tradeIdentifier trade
  let amount := tradeAmount trade
  let sources :=
    match alGet identifier r.sources with
    | some _ => r.sources
    | none => r.sources ++ [(identifier, newSourceBar trade.exchange trade.price)]
  let sources := alUpdate identifier (fun b => { b with empty := false }) sources
  let isActive := cfg.activeExchanges identifier
  if trade.liquidation then
    { r with
      sources := alUpdate identifier (addLiqSource trade.side amount) sources
      bar := if isActive then addLiqBar trade.side amount r.bar else r.bar }
  else
    { r with
      sources := alUpdate identifier (applyTradeSource trade.side trade.price amount) sources
      bar := if isActive then applyTradeBar trade.side amount r.bar else r.bar }

/-- The chunk bookkeeping at a bucket close: a new active chunk is needed
when none exists, or when the active chunk is both behind the renderer and
at the `MAX_BARS_PER_CHUNKS` cap.  With no active chunk and the cache
high-water mark equal to the live timestamp the last cached chunk is
re-activated, otherwise the current active chunk (if any) is sealed and
`saveChunk` appends a fresh one.

`saveChunk` itself lives in `chartCache.ts`, which is not among the
sources.  Modelled from the spec: `saveChunk(descriptor)` creates and
appends a new chunk and returns it as the new active chunk, keeping the
last chunk's `to` as the cache's overall high-water mark. -/
def chunkManagement (cfg : Cfg) (st : CState) (rts : ℕ) : Except String CState := do
  let needNew ←
    match st.activeChunk with
    | none => Except.ok true
    | some i =>
      match st.chunks.get? i with
      | none => Except.error "model: dangling activeChunk index"
      | some c => Except.ok (decide (c.to_ < rts) && decide (c.bars.length ≥ cfg.maxBarsPerChunks))
  if needNew then
    if st.activeChunk.isNone ∧ st.cacheTo = some rts then
      if st.chunks.isEmpty then
        .error "TypeError: cannot read last chunk of empty cache"
      else
        .ok { st with
          chunks := listModify (fun c => { c with active := true }) (st.chunks.length - 1) st.chunks
          activeChunk := some (st.chunks.length - 1) }
    else
      let chunks :=
        match st.activeChunk with
        | some i => listModify (fun c => { c with active := false }) i st.chunks
        | none => st.chunks
      let newChunk : Chunk :=
        { from_ := rts, to_ := rts, active := true, rendered := true, bars := [] }
      .ok { st with
        chunks := chunks ++ [newChunk]
        activeChunk := some chunks.length
        cacheTo := some rts }
  else
    .ok st

/-- The bucket-close-and-advance block of `renderRealtimeTrades`: chunk
bookkeeping, `computeBar` on the closing bucket when its combined bar is
not flagged empty, the snapshot of every non-empty source bar into the
active chunk, the range updates, and `nextBar`. -/
def advanceRenderer (cfg : Cfg) (activeSeries : List ActiveSerie) (newTs : ℕ)
    (st : CState) (r : Renderer) : Except String (CState × List Points) := do
  let st ← chunkManagement cfg st r.timestamp
  let (st, r, formated) ←
    if r.bar.empty = some true then pure (st, r, ([] : List Points))
    else do
      match computeBarLive cfg activeSeries r with
      | .error e => Except.error e
      | .ok (points, r', errors) =>
        pure ({ st with errors := st.errors ++ errors }, r', [points])
  let clones := (r.sources.filter (fun p => !p.2.empty)).map
    (fun p => cloneSourceBar p.2 r.timestamp)
  let st ←
    match st.activeChunk with
    | none => Except.error "TypeError: cannot push bars to undefined active chunk"
    | some i =>
      Except.ok { st with
        chunks := listModify
          (fun c => { c with bars := c.bars ++ clones, to_ := r.timestamp }) i st.chunks
        cacheTo := some r.timestamp }
  let st :=
    if st.renderedTo.getD 0 < r.timestamp then { st with renderedTo := some r.timestamp }
    else st
  pure ({ st with activeRenderer := some (nextBar activeSeries newTs r) }, formated)

/-- One iteration of the trade loop of `renderRealtimeTrades`: when the
trade's bucket is newer than the live renderer's (or there is no renderer
yet), the current bucket closes and the renderer advances (or is created);
then the trade is folded into the live renderer — whatever its bucket
timestamp. -/
def tradeStep (cfg : Cfg) (activeSeries : List ActiveSerie)
    (acc : CState × List Points) (trade : Trade) : Except String (CState × List Points) := do
  let (st, formated) := acc
  let timestamp := bucketOf cfg trade
  let (st, formated) ←
    match st.activeRenderer with
    | none =>
      pure ({ st with activeRenderer := some (createRenderer activeSeries timestamp none) },
        formated)
    | some r =>
      if r.timestamp < timestamp then do
        let (st', pts) ← advanceRenderer cfg activeSeries timestamp st r
        pure (st', formated ++ pts)
      else
        pure (st, formated)
  match st.activeRenderer with
  | none => Except.error "model: renderer must exist after advancement"
  | some r =>
    pure ({ st with activeRenderer := some (foldTradeIntoRenderer cfg trade r) }, formated)

/-- `renderRealtimeTrades(trades)`: folds the batch in array order, then
computes the still-open bucket once more when its combined bar is not
flagged empty.  The returned point maps are the `formatedBars` passed to
`updateBar` (the incremental render-sink emission). -/
def renderRealtimeTrades (cfg : Cfg) (activeSeries : List ActiveSerie)
    (trades : List Trade) (st : CState) : Except String (CState × List Points) := do
  if trades.isEmpty then
    return (st, [])
  let (st, formated) ← trades.foldlM (tradeStep cfg activeSeries) (st, [])
  match st.activeRenderer with
  | none => Except.error "TypeError: cannot read bar of null renderer"
  | some r =>
    if r.bar.empty = some true then
      return (st, formated)
    else
      match computeBarLive cfg activeSeries r with
      | .error e => Except.error e
      | .ok (points, r', errors) =>
        let st := { st with activeRenderer := some r', errors := st.errors ++ errors }
        let st :=
          if st.renderedTo.getD 0 < r'.timestamp then
            { st with renderedTo := some r'.timestamp }
          else st
        return (st, formated ++ [points])

/-- The render-sink series updated by the `updateBar` loop after
`renderRealtimeTrades`: each serie whose id is present (truthy) in the
point map. -/
def updateBarEmits (activeSeries : List ActiveSerie) (points : Points) : List String :=
  (activeSeries.filter (fun s => (alGet s.id points).isSome)).map (fun s => s.id)

/-! ## Historical replay (`renderBars`) -/

/-- `computedSeries[id].push(computedBar[id])` for every id of one computed
bucket. -/
def pushComputed (computed : Computed) (points : Points) : Computed :=
  points.foldl (fun m p =>
    match alGet p.1 m with
    | none => m ++ [(p.1, [p.2])]
    | some l => alUpdate p.1 (fun _ => l ++ [p.2]) m) computed

/-- The close step of the `renderBars` loop: when the temporary renderer's
combined bar `hasData`, record the range and compute the bucket through
`computeBar(temporaryRenderer, series)` (the NaN unbind inside targets
`this.activeRenderer`, carried here as `live`). -/
def renderBarsFlush (cfg : Cfg) (activeSeries : List ActiveSerie)
    (filter' : Option (List String)) (tR : Option Renderer) (live : Option Renderer)
    (computed : Computed) (f t : Option ℕ) (errors : List SerieErrorEvent) :
    Except String
      (Option Renderer × Option Renderer × Computed × Option ℕ × Option ℕ ×
        List SerieErrorEvent) :=
  match tR with
  | some r =>
    if r.bar.hasData = some true then
      let f' := if f = none then some r.timestamp else f
      match computeBar cfg activeSeries filter' r false live with
      | .error e => .error e
      | .ok (points, r', live', errs) =>
        .ok (some r', live', pushComputed computed points, f', some r.timestamp,
          errors ++ errs)
    else .ok (tR, live, computed, f, t, errors)
  | none => .ok (none, live, computed, f, t, errors)

/-- The loop of `renderBars` (`for i = 0; i <= bars.length`): on a bucket
boundary (or before the first bar) flush the previous bucket and advance or
create the temporary renderer; then skip inactive-exchange bars, accumulate
the bar into the combined bar and store its clone into
`temporaryRenderer.exchanges[bar.exchange]` — a field `createRenderer`
never creates, so the write throws. -/
def renderBarsGo (cfg : Cfg) (activeSeries : List ActiveSerie)
    (filter' : Option (List String)) :
    List ChunkBar → Option Renderer → Option Renderer → Computed → Option ℕ →
    Option ℕ → List SerieErrorEvent →
    Except String
      (Option Renderer × Option Renderer × Computed × Option ℕ × Option ℕ ×
        List SerieErrorEvent)
  | [], tR, live, computed, f, t, errors =>
    renderBarsFlush cfg activeSeries filter' tR live computed f t errors
  | bar :: rest, tR, live, computed, f, t, errors => do
    let (tR, live, computed, f, t, errors) ←
      if (match tR with | none => true | some r => decide (r.timestamp < bar.timestamp)) then do
        let (tR1, live1, computed1, f1, t1, errors1) ←
          renderBarsFlush cfg activeSeries filter' tR live computed f t errors
        let tR2 :=
          match tR1 with
          | some r => some (nextBar activeSeries bar.timestamp r)
          | none => some (createRenderer activeSeries bar.timestamp filter')
        pure (tR2, live1, computed1, f1, t1, errors1)
      else
        pure (tR, live, computed, f, t, errors)
    if !cfg.activeExchanges bar.exchange then
      renderBarsGo cfg activeSeries filter' rest tR live computed f t errors
    else
      match tR with
      | none => Except.error "model: temporary renderer must exist"
      | some r =>
        let r :=
          { r with bar :=
            { r.bar with
              hasData := some true
              vbuy := r.bar.vbuy + bar.vbuy, vsell := r.bar.vsell + bar.vsell
              cbuy := r.bar.cbuy + bar.cbuy, csell := r.bar.csell + bar.csell
              lbuy := r.bar.lbuy + bar.lbuy, lsell := r.bar.lsell + bar.lsell } }
        match r.exchanges with
        | none => Except.error "TypeError: Cannot set properties of undefined"
        | some m =>
          let r := { r with exchanges := some (alSet bar.exchange (cloneChunkBar bar) m) }
          renderBarsGo cfg activeSeries filter' rest (some r) live computed f t errors

/-- `renderBars(bars, series)`: replays a flat bar sequence through a
temporary renderer; on a full render (`series = null`) the rendered range
is recomputed (after `clearChart` nulls it); `replaceData` receives the
accumulated `computedSeries` (the second component); finally the temporary
renderer's serie states merge into the live renderer, or become it. -/
def renderBars (cfg : Cfg) (activeSeries : List ActiveSerie) (bars : List ChunkBar)
    (filter' : Option (List String)) (st : CState) : Except String (CState × Computed) := do
  if bars.isEmpty then
    return (st, [])
  match renderBarsGo cfg activeSeries filter' bars none st.activeRenderer [] none none [] with
  | .error e => Except.error e
  | .ok (tR, live', computed, f, t, errs) =>
    let st := { st with activeRenderer := live', errors := st.errors ++ errs }
    let st :=
      if filter'.isNone then { st with renderedFrom := f, renderedTo := t }
      else st
    match tR with
    | none => Except.error "model: temporary renderer must exist after nonempty replay"
    | some tr =>
      let st :=
        match st.activeRenderer with
        | some ar =>
          let ar' := { ar with series := tr.series.foldl (fun m p => alSet p.1 p.2 m) ar.series }
          { st with activeRenderer := some ar' }
        | none => { st with activeRenderer := some tr }
      return (st, computed)

/-! ## Visible-chunk selection (`renderVisibleChunks`) -/

/-- The effective range start: `visibleRange.from`, pulled left by
`timeframe * visibleLogicalRange.from` when the logical range starts below
zero. -/
def rvcRangeStart (cfg : Cfg) (vfrom vlFrom : ℚ) : ℚ :=
  if vlFrom < 0 then vfrom + (cfg.timeframe : ℚ) * vlFrom else vfrom

/-- The selection predicate
`c.rendered = !visibleRange || c.to > from - timeframe * 20`. -/
def rvcSelected (cfg : Cfg) (vr : Option TimeRange) (vlFrom : ℚ) (c : Chunk) : Bool :=
  match vr with
  | none => true
  | some v => decide ((c.to_ : ℚ) > rvcRangeStart cfg v.from_ vlFrom - (cfg.timeframe : ℚ) * 20)

/-- The single `filter`-with-assignment-then-`reduce` pass over the cache:
marks each chunk's `rendered` flag and concatenates the selected chunks'
bars in cache order. -/
def rvcPass (pred : Chunk → Bool) : List Chunk → List Chunk × List ChunkBar
  | [] => ([], [])
  | c :: cs =>
    let c' := { c with rendered := pred c }
    let (ms, bs) := rvcPass pred cs
    (c' :: ms, (if c'.rendered then c'.bars else []) ++ bs)

/-- `renderVisibleChunks()`: no-op on an empty cache; otherwise marks and
collects the chunks colliding with the (adjusted) visible range and feeds
the flat bar list to `renderBars(bars, null)`.  Returns the updated cache
and that bar list. -/
def renderVisibleChunks (cfg : Cfg) (vr : Option TimeRange) (vlFrom : ℚ)
    (chunks : List Chunk) : List Chunk × List ChunkBar :=
  if chunks.isEmpty then (chunks, [])
  else rvcPass (rvcSelected cfg vr vlFrom) chunks

/-! ## Serie preparation (`prepareSerie` / `addSerie`) -/

/-- The message of the `new Error(...)` thrown by `prepareSerie` when a
single-value output drives a candlestick or bar visual. -/
def ohlcExpectedError : String :=
  "code output is a single value but ohlc object (\x7bopen, high, low, close\x7d) was expected"

/-- The output-kind reconciliation inside `prepareSerie`: an OHLC output on
a non-candlestick, non-bar visual is narrowed to `output + '.close'` with
kind `value`; a single-value output on a candlestick or bar visual throws. -/
def prepareSerieOutput (serieType output : String) (t : OutType) :
    Except String (String × OutType) :=
  if t = OutType.ohlc ∧ serieType ≠ "candlestick" ∧ serieType ≠ "bar" then
    .ok (output ++ ".close", OutType.value)
  else if t = OutType.value ∧ (serieType = "candlestick" ∨ serieType = "bar") then
    .error ohlcExpectedError
  else
    .ok (output, t)

/-- A registered serie as `addSerie` leaves it in `this.activeSeries`. -/
structure RegisteredSerie where
  id : String
  type : String
  output : String
  modelType : OutType
deriving DecidableEq, Repr

/-- The registration outcome of `addSerie(id)` for a serie whose transpiled
output and kind are given: `prepareSerie` first clears the serie error,
then reconciles the output kind; on success the serie is pushed onto
`activeSeries`, while a thrown error is caught, committed as the serie's
error, and `addSerie` returns before registering anything. -/
def addSerieModel (activeSeries : List RegisteredSerie) (id serieType output : String)
    (t : OutType) : List RegisteredSerie × List SerieErrorEvent :=
  match prepareSerieOutput serieType output t with
  | .ok (out, t') =>
    (activeSeries ++ [{ id := id, type := serieType, output := out, modelType := t' }],
      [(id, none)])
  | .error msg => (activeSeries, [(id, none), (id, some msg)])

/-- Modelled from the spec: the initial state the transpiler gives an
`average_function` instruction — an empty bounded queue, zero running sum
and count (`serieTranspiler.ts` is not among the sources). -/
def initAvgState : AvgState :=
  { points := [], sum := 0, count := 0, output := 0 }

/-! ## Concrete fixtures used by witnesses and counterexamples -/

/-- Test configuration: 60-second buckets, only source `"A"` active, no
timezone offset, 100-bar chunks. -/
def cfgT : Cfg :=
  { timeframe := 60, activeExchanges := fun k => k == "A", timezoneOffset := 0
    maxBarsPerChunks := 100 }

/-- A pristine controller state (no live renderer, empty cache). -/
def st0 : CState :=
  { activeRenderer := none, chunks := [], activeChunk := none, cacheTo := none
    renderedFrom := none, renderedTo := none, errors := [] }

/-- Buy trade on active source `"A"` at t = 0 s (bucket 0). -/
def tA : Trade :=
  { exchange := "A", pair := "", price := 100, size := 1, side := .buy
    liquidation := false, timestamp := 0 }

/-- Sell trade on inactive source `"B"` at t = 10 s (bucket 0). -/
def tB : Trade :=
  { exchange := "B", pair := "", price := 102, size := 2, side := .sell
    liquidation := false, timestamp := 10000 }

/-- Buy trade on `"A"` at t = 65 s (bucket 60, forces a bucket advance). -/
def tA2 : Trade :=
  { exchange := "A", pair := "", price := 101, size := 1, side := .buy
    liquidation := false, timestamp := 65000 }

/-- Buy trade on `"A"` at t = 10 s (bucket 0) — strictly older than bucket 60
when it arrives after `tA2`. -/
def tOld : Trade :=
  { exchange := "A", pair := "", price := 100, size := 1, side := .buy
    liquidation := false, timestamp := 10000 }

/-- Sell liquidation on `"A"` at t = 10 s (bucket 0). -/
def tLiq : Trade :=
  { exchange := "A", pair := "", price := 10, size := 2, side := .sell
    liquidation := true, timestamp := 10000 }

/-- A finished cached bar of the active source `"A"` (as `cloneSourceBar`
would have produced for bucket 0). -/
def cb1 : ChunkBar :=
  { exchange := "A", timestamp := 0, open_ := 100, high := 100, low := 100
    close := 100, vbuy := 100, vsell := 0, lbuy := 0, lsell := 0, cbuy := 1
    csell := 0 }

/-- A live renderer at bucket 60 whose source bar `"A"` carries data
(close 101 differing from open 100, nonzero volumes). -/
def rC2 : Renderer :=
  { timestamp := 60
    bar :=
      { vbuy := 101, vsell := 0, lbuy := 0, lsell := 0, cbuy := 1, csell := 0
        empty := some false, hasData := none }
    sources :=
      [("A",
        { exchange := "A", open_ := 100, high := 101, low := 99, close := 101
          vbuy := 100, vsell := 6, lbuy := 1, lsell := 2, cbuy := 3, csell := 4
          empty := false })]
    exchanges := none
    series := [] }

/-- A controller state whose live renderer is `rC2`. -/
def stR : CState :=
  { st0 with activeRenderer := some rC2 }

/-- Counter configuration with a 10 s window of two 5 s slots. -/
def cfg4 : Counter.Config :=
  { window := 10000, granularity := 5000 }

/-- An adapter ignoring all of its state: returns the fixed point and the
instruction lists unchanged. -/
def constAdapter (p : JSPoint) :
    Renderer → List Instruction → List Instruction →
    JSPoint × List Instruction × List Instruction :=
  fun _ fns vars => (p, fns, vars)

/-- Fresh per-renderer serie state as `bindSerie` installs it. -/
def serieData0 : RendererSerieData :=
  { value := JSValue.null, point := none, functions := [], variables' := [] }

/-- A healthy value serie (always 5). -/
def c6s1 : ActiveSerie :=
  { id := "sma", type := "line", modelType := .value
    adapter := constAdapter (.pval (.num 5)), initFunctions := [], initVariables := [] }

/-- A broken value serie (always NaN). -/
def c6sn : ActiveSerie :=
  { id := "broken", type := "line", modelType := .value
    adapter := constAdapter (.pval .nan), initFunctions := [], initVariables := [] }

/-- Another healthy value serie (always 7). -/
def c6s3 : ActiveSerie :=
  { id := "vol", type := "line", modelType := .value
    adapter := constAdapter (.pval (.num 7)), initFunctions := [], initVariables := [] }

/-- A value serie that always computes `null`. -/
def c10null : ActiveSerie :=
  { id := "nuller", type := "line", modelType := .value
    adapter := constAdapter (.pval .null), initFunctions := [], initVariables := [] }

/-- A histogram serie that always computes 0. -/
def c10hist : ActiveSerie :=
  { id := "hzero", type := "histogram", modelType := .value
    adapter := constAdapter (.pval (.num 0)), initFunctions := [], initVariables := [] }

/-- A live renderer with `"sma"`, `"broken"` and `"vol"` bound. -/
def c6r : Renderer :=
  { timestamp := 60
    bar :=
      { vbuy := 0, vsell := 0, cbuy := 0, csell := 0, lbuy := 0, lsell := 0
        empty := some false, hasData := none }
    sources := [], exchanges := none
    series := [("sma", serieData0), ("broken", serieData0), ("vol", serieData0)] }

/-- A live renderer with `"nuller"` and `"hzero"` bound. -/
def c10r : Renderer :=
  { timestamp := 60
    bar :=
      { vbuy := 0, vsell := 0, cbuy := 0, csell := 0, lbuy := 0, lsell := 0
        empty := some false, hasData := none }
    sources := [], exchanges := none
    series := [("nuller", serieData0), ("hzero", serieData0)] }

/-- An archived chunk covering [0, 300]. -/
def ckA : Chunk :=
  { from_ := 0, to_ := 300, active := false, rendered := true, bars := [cb1] }

/-- The active chunk covering [360, 600]. -/
def ckB : Chunk :=
  { from_ := 360, to_ := 600, active := true, rendered := true, bars := [] }

/-! ## Association-list lemmas -/

theorem alGet_alUpdate_self (k : String) (f : β → β) (l : List (String × β)) :
    alGet k (alUpdate k f l) = (alGet k l).map f := by
  induction l with
  | nil => rfl
  | cons p rest ih =>
    obtain ⟨k', v⟩ := p
    by_cases h : k' = k
    · simp [alGet, alUpdate, h]
    · simp [alGet, alUpdate, h, ih]

theorem alGet_alUpdate_ne (k q : String) (f : β → β) (l : List (String × β)) (h : q ≠ k) :
    alGet q (alUpdate k f l) = alGet q l := by
  have h' : k ≠ q := Ne.symm h
  induction l with
  | nil => rfl
  | cons p rest ih =>
    obtain ⟨k', v⟩ := p
    by_cases hk : k' = k
    · have hne : ¬ k' = q := fun hq => h' (hk ▸ hq)
      simp [alGet, alUpdate, hk, hne, h, h']
    · by_cases hq : k' = q
      · simp [alGet, alUpdate, hk, hq, h, h']
      · simp [alGet, alUpdate, hk, hq, h, h', ih]

theorem alGet_alSet_self (k : String) (v : β) (l : List (String × β)) :
    alGet k (alSet k v l) = some v := by
  induction l with
  | nil => simp [alGet, alSet]
  | cons p rest ih =>
    obtain ⟨k', v'⟩ := p
    by_cases h : k' = k
    · simp [alGet, alSet, h]
    · simp [alGet, alSet, h, ih]

theorem alGet_alSet_ne (k q : String) (v : β) (l : List (String × β)) (h : q ≠ k) :
    alGet q (alSet k v l) = alGet q l := by
  have h' : k ≠ q := Ne.symm h
  induction l with
  | nil => simp [alGet, alSet, h']
  | cons p rest ih =>
    obtain ⟨k', v'⟩ := p
    by_cases hk : k' = k
    · have hne : ¬ k' = q := fun hq => h' (hk ▸ hq)
      simp [alGet, alSet, hk, hne, h, h']
    · by_cases hq : k' = q
      · simp [alGet, alSet, hk, hq, h, h']
      · simp [alGet, alSet, hk, hq, h, h', ih]

theorem alGet_alRemove_self (k : String) (l : List (String × β)) :
    alGet k (alRemove k l) = none := by
  induction l with
  | nil => rfl
  | cons p rest ih =>
    obtain ⟨k', v⟩ := p
    by_cases h : k' = k
    · have hd : alRemove k ((k', v) :: rest) = alRemove k rest := by
        simp [alRemove, h]
      rw [hd, ih]
    · have hd : alRemove k ((k', v) :: rest) = (k', v) :: alRemove k rest := by
        simp [alRemove, h]
      rw [hd]
      simp [alGet, h, ih]

theorem alGet_alRemove_ne (k q : String) (l : List (String × β)) (h : q ≠ k) :
    alGet q (alRemove k l) = alGet q l := by
  induction l with
  | nil => rfl
  | cons p rest ih =>
    obtain ⟨k', v⟩ := p
    by_cases hk : k' = k
    · have hd : alRemove k ((k', v) :: rest) = alRemove k rest := by
        simp [alRemove, hk]
      have hne : ¬ k' = q := fun hq => h (hq.symm.trans hk)
      rw [hd, ih]
      simp [alGet, hne]
    · have hd : alRemove k ((k', v) :: rest) = (k', v) :: alRemove k rest := by
        simp [alRemove, hk]
      rw [hd]
      by_cases hq : k' = q
      · simp [alGet, hq]
      · simp [alGet, hq, ih]

/-! ## Claim theorems -/

/-- C4: with a full two-slot window (constant rate, one update per slot,
value 1 each; `filled` holds and two expiry timers are pending), stopping
updates and letting every pending slot-expiry timer fire leaves
`getValue()` at 1 — the first slot's contribution is never subtracted
(`this.live -= stack` is commented out and the `remaining` compensation
starts one slot late), so the counter does not decay to 0 as claimed. -/
theorem c4_counter_does_not_decay_to_zero :
    (Counter.onStats cfg4 7000 7000 1 (Counter.onStats cfg4 1000 1000 1 Counter.clear)).filled
        = true ∧
    (Counter.onStats cfg4 7000 7000 1 (Counter.onStats cfg4 1000 1000 1 Counter.clear)).timeouts
        = 2 ∧
    (Counter.shiftStack (Counter.shiftStack
        (Counter.onStats cfg4 7000 7000 1 (Counter.onStats cfg4 1000 1000 1 Counter.clear)))).timeouts
        = 0 ∧
    Counter.getValue (Counter.shiftStack (Counter.shiftStack
        (Counter.onStats cfg4 7000 7000 1 (Counter.onStats cfg4 1000 1000 1 Counter.clear))))
        = 1 := by
  refine ⟨?_, ?_, ?_, ?_⟩ <;>
    norm_num +decide [Counter.onStats, Counter.appendStack, Counter.addData, Counter.clear,
      Counter.shiftStack, Counter.getValue, cfg4, jsTruthy]

/-- C2: `nextBar` never touches `renderer.sources` — `resetRendererBar`
iterates `renderer.exchanges`, a field live renderers do not have — so no
SourceBar held by the live renderer is reset at a bucket advance.
Concretely, advancing `rC2` (source `"A"`: open 100, close 101, vbuy 100,
cbuy 3) to bucket 120 leaves open = 100 (not the previous close 101) and
vbuy = 100 (not 0), contradicting the claimed carry-forward and zeroing. -/
theorem c2_nextBar_does_not_reset_sources :
    (∀ (activeSeries : List ActiveSerie) (ts : ℕ) (r : Renderer),
        (nextBar activeSeries ts r).sources = r.sources) ∧
    ((nextBar [] 120 rC2).sources = rC2.sources ∧
      (alGet "A" (nextBar [] 120 rC2).sources).map
          (fun b => (b.open_, b.high, b.low, b.close, b.vbuy, b.cbuy)) =
        some (100, 101, 99, 101, 100, 3)) := by
  refine ⟨?_, ?_, ?_⟩
  · intro A ts r
    unfold nextBar resetRendererBar
    split <;> rfl
  · norm_num +decide [nextBar, resetRendererBar, resetChunkBar, nextBarSerieStep, rC2, alGet]
  · norm_num +decide [nextBar, resetRendererBar, resetChunkBar, nextBarSerieStep, rC2, alGet]

/-- C1: recombination correctness fails on the code.  (a) The rebuild
replay crashes: `renderBars` on one cached bar of the active source throws
(`temporaryRenderer.exchanges` is undefined — `createRenderer` only creates
`sources`), so no CombinedBar is recombined at all.  (b) In the live fold,
after a bucket advance the SourceBars are never reset (C2), so at bucket 60
the CombinedBar's vbuy is 101 while the active source's SourceBar holds
201.  (c) For a single bucket from a fresh renderer the live fold does
match: combined {vbuy 100, cbuy 1, vsell 0, csell 0} equals the active
source `"A"`'s fields, the inactive `"B"` being recorded (vsell 204) but
excluded. -/
theorem c1_recombination_broken :
    renderBars cfgT [] [cb1] none st0 =
      Except.error "TypeError: Cannot set properties of undefined" ∧
    ((renderRealtimeTrades cfgT [] [tA, tA2] st0).toOption.map (fun p =>
        p.1.activeRenderer.map (fun r => (r.bar.vbuy, (alGet "A" r.sources).map SourceBar.vbuy)))) =
      some (some (101, some 201)) ∧
    ((renderRealtimeTrades cfgT [] [tA, tB] st0).toOption.map (fun p =>
        p.1.activeRenderer.map (fun r =>
          (r.bar.vbuy, r.bar.vsell, r.bar.cbuy, r.bar.csell,
            (alGet "A" r.sources).map SourceBar.vbuy,
            (alGet "B" r.sources).map SourceBar.vsell)))) =
      some (some (100, 0, 1, 0, some 100, some 204)) := by
  refine ⟨?_, ?_, ?_⟩ <;>
    norm_num +decide [renderBars, renderBarsGo, renderBarsFlush, createRenderer, bindSerieEntry,
      renderRealtimeTrades, tradeStep, advanceRenderer, chunkManagement, computeBarLive,
      computeBar, computeBarGo, computeSerieStep, List.foldlM, nextBar, resetRendererBar,
      resetBar, nextBarSerieStep,
      foldTradeIntoRenderer, newSourceBar, applyTradeSource, applyTradeBar, addLiqSource,
      addLiqBar, tradeIdentifier, bucketOf, tradeAmount, cloneSourceBar, cloneChunkBar,
      alGet, alSet, alUpdate, alRemove, listModify, cfgT, st0, tA, tA2, tB, cb1,
      valueOfPoint, emitPoint, Except.toOption, Bind.bind, Except.bind, Pure.pure, Except.pure,
      pushComputed]

/-- C7: preparing a serie whose transpiled kind is OHLC but whose visual
type is neither candlestick nor bar rewrites the output to `output +
'.close'` and retypes it as a single value, and the serie registers; a
single-value output on a candlestick or bar visual raises the compile
error and the serie is not pushed onto `activeSeries`. -/
theorem c7_output_kind_reconciliation :
    ∀ (id vt out : String) (regs : List RegisteredSerie),
      (vt ≠ "candlestick" → vt ≠ "bar" →
        prepareSerieOutput vt out OutType.ohlc = .ok (out ++ ".close", OutType.value) ∧
        addSerieModel regs id vt out OutType.ohlc =
          (regs ++ [{ id := id, type := vt, output := out ++ ".close", modelType := OutType.value }],
            [(id, none)])) ∧
      ((vt = "candlestick" ∨ vt = "bar") →
        prepareSerieOutput vt out OutType.value = .error ohlcExpectedError ∧
        addSerieModel regs id vt out OutType.value = (regs, [(id, none), (id, some ohlcExpectedError)])) := by
  intro id vt out regs
  constructor
  · intro h1 h2
    have hp : prepareSerieOutput vt out OutType.ohlc = .ok (out ++ ".close", OutType.value) := by
      simp [prepareSerieOutput, h1, h2]
    exact ⟨hp, by simp [addSerieModel, hp]⟩
  · intro h
    have hp : prepareSerieOutput vt out OutType.value = .error ohlcExpectedError := by
      rcases h with h | h <;> simp [prepareSerieOutput, h]
    exact ⟨hp, by simp [addSerieModel, hp]⟩

/-- Witness for C7: a line serie with OHLC output is narrowed and
registered; a candlestick serie with single-value output errors out and
stays unregistered. -/
theorem c7_witness :
    (prepareSerieOutput "line" "bar.ohlc" OutType.ohlc = .ok ("bar.ohlc" ++ ".close", OutType.value) ∧
      addSerieModel [] "ema" "line" "bar.ohlc" OutType.ohlc =
        ([{ id := "ema", type := "line", output := "bar.ohlc" ++ ".close", modelType := OutType.value }],
          [("ema", none)])) ∧
    (prepareSerieOutput "candlestick" "bar.close" OutType.value = .error ohlcExpectedError ∧
      addSerieModel [] "price" "candlestick" "bar.close" OutType.value =
        ([], [("price", none), ("price", some ohlcExpectedError)])) := by
  constructor
  · simpa using (c7_output_kind_reconciliation "ema" "line" "bar.ohlc" []).1
      (by decide) (by decide)
  · exact (c7_output_kind_reconciliation "price" "candlestick" "bar.close" []).2 (Or.inl rfl)

/-- C5: the `average_function` transition in `nextBar` appends the last
computed output to the queue, adds it to the running sum and bumps the
count, evicting (and subtracting) the oldest entry when the count exceeds
`arg`; consequently, starting from the transpiler's empty state, the queue
never exceeds `arg` entries, the count tracks the queue length and the
running sum always equals the sum of the queue's entries. -/
theorem c5_average_function_invariant :
    (initAvgState.count = initAvgState.points.length ∧
      initAvgState.sum = initAvgState.points.sum ∧
      ∀ arg : ℕ, initAvgState.points.length ≤ arg) ∧
    ∀ (arg : ℕ) (st : AvgState),
      st.count = st.points.length → st.sum = st.points.sum → st.points.length ≤ arg →
      ∃ st', stepFunctionInstruction (Instruction.average_function arg st) =
          Instruction.average_function arg st' ∧
        st'.points =
          (if st.points.length + 1 > arg then (st.points ++ [st.output]).tail
           else st.points ++ [st.output]) ∧
        st'.count = st'.points.length ∧
        st'.sum = st'.points.sum ∧
        st'.points.length ≤ arg := by
  refine ⟨⟨rfl, rfl, fun arg => Nat.zero_le arg⟩, ?_⟩
  intro arg st hc hs hlen
  by_cases hgt : st.count + 1 > arg
  · have hgt' : st.points.length + 1 > arg := by omega
    refine ⟨⟨(st.points ++ [st.output]).tail,
        st.sum + st.output - (st.points ++ [st.output]).headD 0,
        st.count + 1 - 1, st.output⟩, ?_, ?_, ?_, ?_, ?_⟩
    · simp [stepFunctionInstruction, hgt]
    · simp [hgt']
    · simp
      omega
    · rcases hp : st.points with _ | ⟨x, xs⟩
      · simp [hs, hp]
      · simp [hs, hp, List.sum_append]
        ring
    · simp
      omega
  · have hgt' : ¬ st.points.length + 1 > arg := by omega
    refine ⟨⟨st.points ++ [st.output], st.sum + st.output, st.count + 1, st.output⟩,
        ?_, ?_, ?_, ?_, ?_⟩
    · simp [stepFunctionInstruction, hgt]
    · simp [hgt']
    · simp [hc]
    · simp [hs]
    · simp
      omega

/-- Witness for C5: stepping `average_function` with window 3 from queue
[2, 3], sum 5, count 2 and last output 7. -/
theorem c5_witness :
    ∃ st', stepFunctionInstruction
        (Instruction.average_function 3 { points := [2, 3], sum := 5, count := 2, output := 7 }) =
        Instruction.average_function 3 st' ∧
      st'.points =
        (if ([2, 3] : List ℚ).length + 1 > 3 then (([2, 3] : List ℚ) ++ [7]).tail
         else ([2, 3] : List ℚ) ++ [7]) ∧
      st'.count = st'.points.length ∧
      st'.sum = st'.points.sum ∧
      st'.points.length ≤ 3 :=
  c5_average_function_invariant.2 3
    { points := [2, 3], sum := 5, count := 2, output := 7 }
    (by norm_num) (by norm_num) (by norm_num)

theorem rvcPass_fst (pred : Chunk → Bool) (l : List Chunk) :
    (rvcPass pred l).1 = l.map (fun c => { c with rendered := pred c }) := by
  induction l with
  | nil => rfl
  | cons c cs ih => simp [rvcPass, ih]

theorem rvcPass_snd (pred : Chunk → Bool) (l : List Chunk) :
    (rvcPass pred l).2 =
      ((rvcPass pred l).1.filter (fun c => c.rendered)).flatMap Chunk.bars := by
  induction l with
  | nil => rfl
  | cons c cs ih => by_cases h : pred c <;> simp [rvcPass, h, ih]

/-- C9: on a nonempty cache, `renderVisibleChunks` marks exactly the chunks
whose `to` exceeds the (logical-range-adjusted) range start minus 20 bucket
widths as `rendered` — every chunk when no visible range is available — and
feeds the selected chunks' bars, concatenated in cache order, to
recomputation. -/
theorem c9_chunk_selection :
    ∀ (cfg : Cfg) (vr : Option TimeRange) (vlFrom : ℚ) (chunks : List Chunk),
      chunks ≠ [] →
      (renderVisibleChunks cfg vr vlFrom chunks).1 =
        chunks.map (fun c => { c with rendered := rvcSelected cfg vr vlFrom c }) ∧
      (renderVisibleChunks cfg vr vlFrom chunks).2 =
        ((renderVisibleChunks cfg vr vlFrom chunks).1.filter (fun c => c.rendered)).flatMap
          Chunk.bars ∧
      (∀ c : Chunk, rvcSelected cfg vr vlFrom c = true ↔
        (vr = none ∨ ∃ v, vr = some v ∧
          rvcRangeStart cfg v.from_ vlFrom - (cfg.timeframe : ℚ) * 20 < (c.to_ : ℚ))) := by
  intro cfg vr vlFrom chunks hne
  have hpass : renderVisibleChunks cfg vr vlFrom chunks =
      rvcPass (rvcSelected cfg vr vlFrom) chunks := by
    simp [renderVisibleChunks, hne]
  refine ⟨?_, ?_, ?_⟩
  · rw [hpass, rvcPass_fst]
  · rw [hpass, rvcPass_snd]
  · intro c
    cases vr with
    | none => simp [rvcSelected]
    | some v => simp [rvcSelected]

theorem computeBarGo_spec (time : ℚ) (base : Renderer) :
    ∀ (L : List ActiveSerie) (points : Points) (m : List (String × RendererSerieData))
      (errors : List SerieErrorEvent),
      (L.map ActiveSerie.id).Nodup →
      (∀ s ∈ L, (alGet s.id m).isSome) →
      ∃ points' m' newErr,
        computeBarGo none time true base L (points, m, none, errors) =
          .ok (points', m', none, errors ++ newErr) ∧
        (∀ k, (∀ s ∈ L, s.id ≠ k) →
          alGet k points' = alGet k points ∧ alGet k m' = alGet k m) ∧
        (∀ e ∈ newErr, ∃ s, s ∈ L ∧ e.1 = s.id ∧ ¬ neverNaN s) ∧
        (∀ s ∈ L, neverNaN s →
          ∃ d, alGet s.id m' = some d ∧ d.point.isSome ∧ d.value ≠ JSValue.nan) ∧
        (∀ s ∈ L, alwaysNaN s →
          alGet s.id m' = none ∧ (s.id, some (s.id ++ " is NaN")) ∈ newErr) ∧
        (∀ s ∈ L, alwaysOmitted s → alGet s.id points' = none) := by
  intro L
  induction L with
  | nil =>
    intro points m errors _ _
    exact ⟨points, m, [], by simp [computeBarGo, List.foldlM, Pure.pure, Except.pure],
      by simp, by simp, by simp, by simp, by simp⟩
  | cons s rest ih =>
    intro points m errors hnodup hbound
    have hpair : (∀ x ∈ rest, ¬ x.id = s.id) ∧ (rest.map ActiveSerie.id).Nodup := by
      simpa using hnodup
    have hnodr : (rest.map ActiveSerie.id).Nodup := hpair.2
    have hrestne : ∀ s' ∈ rest, s'.id ≠ s.id := fun s' hs' => hpair.1 s' hs'
    have hs : (alGet s.id m).isSome := hbound s (by simp)
    obtain ⟨d, hd⟩ : ∃ d, alGet s.id m = some d := by
      cases h : alGet s.id m
      · rw [h] at hs
        simp at hs
      · exact ⟨_, rfl⟩
    rcases hA : s.adapter { base with series := m } d.functions d.variables' with ⟨pt, fns2, vars2⟩
    have hv : serieValue s { base with series := m } d.functions d.variables' =
        valueOfPoint s.modelType pt := by
      simp [serieValue, hA]
    by_cases hnan : valueOfPoint s.modelType pt = JSValue.nan
    · -- NaN branch: unbind, error, continue
      have hnotnever : ¬ neverNaN s := fun hn => hn _ _ _ (hv.trans hnan)
      have hstep : computeSerieStep none time true base (points, m, none, errors) s =
          .ok (alSet s.id (emitPoint s.modelType time pt) points,
            alRemove s.id (alUpdate s.id
              (fun _ => ⟨JSValue.nan, some pt, fns2, vars2⟩) m),
            none, errors ++ [(s.id, some (s.id ++ " is NaN"))]) := by
        simp [computeSerieStep, hd, hA, hnan]
      have hboundr : ∀ s' ∈ rest,
          (alGet s'.id (alRemove s.id (alUpdate s.id
            (fun _ => (⟨JSValue.nan, some pt, fns2, vars2⟩ : RendererSerieData)) m))).isSome := by
        intro s' hs'
        rw [alGet_alRemove_ne _ _ _ (hrestne s' hs'),
          alGet_alUpdate_ne _ _ _ _ (hrestne s' hs')]
        exact hbound s' (by simp [hs'])
      obtain ⟨P', M', E', hres, hK1, hKerr, hKnever, hKnan, hKomit⟩ :=
        ih _ _ _ hnodr hboundr
      refine ⟨P', M', (s.id, some (s.id ++ " is NaN")) :: E', ?_, ?_, ?_, ?_, ?_, ?_⟩
      · have : computeBarGo none time true base (s :: rest) (points, m, none, errors) =
            computeBarGo none time true base rest
              (alSet s.id (emitPoint s.modelType time pt) points,
                alRemove s.id (alUpdate s.id
                  (fun _ => ⟨JSValue.nan, some pt, fns2, vars2⟩) m),
                none, errors ++ [(s.id, some (s.id ++ " is NaN"))]) := by
          simp [computeBarGo, List.foldlM, hstep, Bind.bind, Except.bind]
        rw [this, hres]
        simp
      · intro k hk
        have hks : s.id ≠ k := hk s (by simp)
        have := hK1 k (fun s' hs' => hk s' (by simp [hs']))
        rw [this.1, this.2, alGet_alSet_ne _ _ _ _ (Ne.symm hks),
          alGet_alRemove_ne _ _ _ (Ne.symm hks), alGet_alUpdate_ne _ _ _ _ (Ne.symm hks)]
        exact ⟨rfl, rfl⟩
      · intro e he
        rcases List.mem_cons.mp he with rfl | he'
        · exact ⟨s, by simp, rfl, hnotnever⟩
        · obtain ⟨s', hs', he1, hnev⟩ := hKerr e he'
          exact ⟨s', by simp [hs'], he1, hnev⟩
      · intro s' hs' hnev
        rcases List.mem_cons.mp hs' with rfl | hmem
        · exact absurd hnev hnotnever
        · exact hKnever s' hmem hnev
      · intro s' hs' hnan'
        rcases List.mem_cons.mp hs' with rfl | hmem
        · refine ⟨?_, by simp⟩
          have := (hK1 s'.id (fun s'' hs'' => hrestne s'' hs'')).2
          rw [this, alGet_alRemove_self]
        · obtain ⟨h1, h2⟩ := hKnan s' hmem hnan'
          exact ⟨h1, by simp [h2]⟩
      · intro s' hs' homit'
        rcases List.mem_cons.mp hs' with rfl | hmem
        · rcases homit' { base with series := m } d.functions d.variables' with h | ⟨_, h⟩
          · exact absurd (hv.symm.trans h) (by simp [hnan])
          · exact absurd (hv.symm.trans h) (by simp [hnan])
        · exact hKomit s' hmem homit'
    · by_cases homit : valueOfPoint s.modelType pt = JSValue.null ∨
          (s.type = "histogram" ∧ valueOfPoint s.modelType pt = JSValue.num 0)
      · -- omission branch: point dropped, serie stays bound
        have hstep : computeSerieStep none time true base (points, m, none, errors) s =
            .ok (alRemove s.id (alSet s.id (emitPoint s.modelType time pt) points),
              alUpdate s.id
                (fun _ => ⟨valueOfPoint s.modelType pt, some pt, fns2, vars2⟩) m,
              none, errors) := by
          simp [computeSerieStep, hd, hA, hnan, homit]
        have hboundr : ∀ s' ∈ rest,
            (alGet s'.id (alUpdate s.id
              (fun _ => (⟨valueOfPoint s.modelType pt, some pt, fns2, vars2⟩ :
                RendererSerieData)) m)).isSome := by
          intro s' hs'
          rw [alGet_alUpdate_ne _ _ _ _ (hrestne s' hs')]
          exact hbound s' (by simp [hs'])
        obtain ⟨P', M', E', hres, hK1, hKerr, hKnever, hKnan, hKomit⟩ :=
          ih _ _ _ hnodr hboundr
        refine ⟨P', M', E', ?_, ?_, ?_, ?_, ?_, ?_⟩
        · have : computeBarGo none time true base (s :: rest) (points, m, none, errors) =
              computeBarGo none time true base rest
                (alRemove s.id (alSet s.id (emitPoint s.modelType time pt) points),
                  alUpdate s.id
                    (fun _ => ⟨valueOfPoint s.modelType pt, some pt, fns2, vars2⟩) m,
                  none, errors) := by
            simp [computeBarGo, List.foldlM, hstep, Bind.bind, Except.bind]
          rw [this, hres]
        · intro k hk
          have hks : s.id ≠ k := hk s (by simp)
          have := hK1 k (fun s' hs' => hk s' (by simp [hs']))
          rw [this.1, this.2, alGet_alRemove_ne _ _ _ (Ne.symm hks),
            alGet_alSet_ne _ _ _ _ (Ne.symm hks), alGet_alUpdate_ne _ _ _ _ (Ne.symm hks)]
          exact ⟨rfl, rfl⟩
        · intro e he
          obtain ⟨s', hs', he1, hnev⟩ := hKerr e he
          exact ⟨s', by simp [hs'], he1, hnev⟩
        · intro s' hs' hnev
          rcases List.mem_cons.mp hs' with rfl | hmem
          · refine ⟨⟨valueOfPoint s'.modelType pt, some pt, fns2, vars2⟩, ?_, by simp, by simpa⟩
            have := (hK1 s'.id (fun s'' hs'' => hrestne s'' hs'')).2
            rw [this, alGet_alUpdate_self, hd]
            rfl
          · exact hKnever s' hmem hnev
        · intro s' hs' hnan'
          rcases List.mem_cons.mp hs' with rfl | hmem
          · exact absurd (hv.symm.trans (hnan' { base with series := m } d.functions d.variables')) hnan
          · exact hKnan s' hmem hnan'
        · intro s' hs' homit'
          rcases List.mem_cons.mp hs' with rfl | hmem
          · have := (hK1 s'.id (fun s'' hs'' => hrestne s'' hs'')).1
            rw [this, alGet_alRemove_self]
          · exact hKomit s' hmem homit'
      · -- plain branch: point kept, serie stays bound
        have hstep : computeSerieStep none time true base (points, m, none, errors) s =
            .ok (alSet s.id (emitPoint s.modelType time pt) points,
              alUpdate s.id
                (fun _ => ⟨valueOfPoint s.modelType pt, some pt, fns2, vars2⟩) m,
              none, errors) := by
          simp [computeSerieStep, hd, hA, hnan, homit]
        have hboundr : ∀ s' ∈ rest,
            (alGet s'.id (alUpdate s.id
              (fun _ => (⟨valueOfPoint s.modelType pt, some pt, fns2, vars2⟩ :
                RendererSerieData)) m)).isSome := by
          intro s' hs'
          rw [alGet_alUpdate_ne _ _ _ _ (hrestne s' hs')]
          exact hbound s' (by simp [hs'])
        obtain ⟨P', M', E', hres, hK1, hKerr, hKnever, hKnan, hKomit⟩ :=
          ih _ _ _ hnodr hboundr
        refine ⟨P', M', E', ?_, ?_, ?_, ?_, ?_, ?_⟩
        · have : computeBarGo none time true base (s :: rest) (points, m, none, errors) =
              computeBarGo none time true base rest
                (alSet s.id (emitPoint s.modelType time pt) points,
                  alUpdate s.id
                    (fun _ => ⟨valueOfPoint s.modelType pt, some pt, fns2, vars2⟩) m,
                  none, errors) := by
            simp [computeBarGo, List.foldlM, hstep, Bind.bind, Except.bind]
          rw [this, hres]
        · intro k hk
          have hks : s.id ≠ k := hk s (by simp)
          have := hK1 k (fun s' hs' => hk s' (by simp [hs']))
          rw [this.1, this.2, alGet_alSet_ne _ _ _ _ (Ne.symm hks),
            alGet_alUpdate_ne _ _ _ _ (Ne.symm hks)]
          exact ⟨rfl, rfl⟩
        · intro e he
          obtain ⟨s', hs', he1, hnev⟩ := hKerr e he
          exact ⟨s', by simp [hs'], he1, hnev⟩
        · intro s' hs' hnev
          rcases List.mem_cons.mp hs' with rfl | hmem
          · refine ⟨⟨valueOfPoint s'.modelType pt, some pt, fns2, vars2⟩, ?_, by simp, by simpa⟩
            have := (hK1 s'.id (fun s'' hs'' => hrestne s'' hs'')).2
            rw [this, alGet_alUpdate_self, hd]
            rfl
          · exact hKnever s' hmem hnev
        · intro s' hs' hnan'
          rcases List.mem_cons.mp hs' with rfl | hmem
          · exact absurd (hv.symm.trans (hnan' { base with series := m } d.functions d.variables')) hnan
          · exact hKnan s' hmem hnan'
        · intro s' hs' homit'
          rcases List.mem_cons.mp hs' with rfl | hmem
          · have h := homit' { base with series := m } d.functions d.variables'
            rw [hv] at h
            exact absurd h homit
          · exact hKomit s' hmem homit'

theorem alUpdate_eq_self (k : String) (f : β → β) (l : List (String × β)) (b : β)
    (hb : alGet k l = some b) (hf : f b = b) : alUpdate k f l = l := by
  induction l with
  | nil => rfl
  | cons p rest ih =>
    obtain ⟨k', v⟩ := p
    by_cases h : k' = k
    · have hv : v = b := by
        rw [alGet, if_pos h] at hb
        exact Option.some.inj hb
      subst hv
      simp [alUpdate, h, hf]
    · rw [alGet, if_neg h] at hb
      simp [alUpdate, h, ih hb]

/-- C8: folding a liquidation trade whose bucket is not newer than the live
bucket, against an already-existing SourceBar, increments only the
matching-side liquidation volume of that SourceBar (price fields and all
other volume/count fields untouched, every other SourceBar untouched), and
mirrors the increment into the CombinedBar exactly when the source is
active; nothing else in the controller state changes. -/
theorem c8_liquidation_frame (cfg : Cfg) (A : List ActiveSerie) (st : CState)
    (fb : List Points) (trade : Trade) (r : Renderer) (b : SourceBar)
    (hr : st.activeRenderer = some r)
    (hadv : ¬ r.timestamp < bucketOf cfg trade)
    (hliq : trade.liquidation = true)
    (hb : alGet (tradeIdentifier trade) r.sources = some b)
    (hempty : b.empty = false) :
    ∃ r', tradeStep cfg A (st, fb) trade = .ok ({ st with activeRenderer := some r' }, fb) ∧
      r'.timestamp = r.timestamp ∧
      alGet (tradeIdentifier trade) r'.sources =
        some (addLiqSource trade.side (tradeAmount trade) b) ∧
      (addLiqSource trade.side (tradeAmount trade) b).open_ = b.open_ ∧
      (addLiqSource trade.side (tradeAmount trade) b).high = b.high ∧
      (addLiqSource trade.side (tradeAmount trade) b).low = b.low ∧
      (addLiqSource trade.side (tradeAmount trade) b).close = b.close ∧
      (addLiqSource trade.side (tradeAmount trade) b).vbuy = b.vbuy ∧
      (addLiqSource trade.side (tradeAmount trade) b).vsell = b.vsell ∧
      (addLiqSource trade.side (tradeAmount trade) b).cbuy = b.cbuy ∧
      (addLiqSource trade.side (tradeAmount trade) b).csell = b.csell ∧
      (trade.side = Side.buy →
        (addLiqSource trade.side (tradeAmount trade) b).lbuy = b.lbuy + tradeAmount trade ∧
        (addLiqSource trade.side (tradeAmount trade) b).lsell = b.lsell) ∧
      (trade.side = Side.sell →
        (addLiqSource trade.side (tradeAmount trade) b).lsell = b.lsell + tradeAmount trade ∧
        (addLiqSource trade.side (tradeAmount trade) b).lbuy = b.lbuy) ∧
      (∀ k, k ≠ tradeIdentifier trade → alGet k r'.sources = alGet k r.sources) ∧
      (cfg.activeExchanges (tradeIdentifier trade) = true →
        r'.bar = addLiqBar trade.side (tradeAmount trade) r.bar) ∧
      (cfg.activeExchanges (tradeIdentifier trade) = false → r'.bar = r.bar) := by
  have hfb : (fun bb : SourceBar => { bb with empty := false }) b = b := by
    cases b
    simp_all
  have hs1 : alUpdate (tradeIdentifier trade)
      (fun bb => { bb with empty := false }) r.sources = r.sources :=
    alUpdate_eq_self _ _ _ b hb hfb
  have hfold : foldTradeIntoRenderer cfg trade r =
      { r with
        sources := alUpdate (tradeIdentifier trade)
          (addLiqSource trade.side (tradeAmount trade)) r.sources
        bar := if cfg.activeExchanges (tradeIdentifier trade) then
            addLiqBar trade.side (tradeAmount trade) r.bar
          else r.bar } := by
    simp only [foldTradeIntoRenderer, hb, hliq, hs1, if_true]
  have hstep : tradeStep cfg A (st, fb) trade =
      .ok ({ st with activeRenderer := some (foldTradeIntoRenderer cfg trade r) }, fb) := by
    simp [tradeStep, hr, hadv, Bind.bind, Except.bind, Pure.pure, Except.pure]
  refine ⟨foldTradeIntoRenderer cfg trade r, hstep, by rw [hfold], ?_, ?_, ?_, ?_, ?_, ?_, ?_,
      ?_, ?_, ?_, ?_, ?_, ?_, ?_⟩
  · rw [hfold]
    show alGet (tradeIdentifier trade)
      (alUpdate (tradeIdentifier trade) (addLiqSource trade.side (tradeAmount trade)) r.sources) = _
    rw [alGet_alUpdate_self, hb]
    rfl
  · cases trade.side <;> simp [addLiqSource]
  · cases trade.side <;> simp [addLiqSource]
  · cases trade.side <;> simp [addLiqSource]
  · cases trade.side <;> simp [addLiqSource]
  · cases trade.side <;> simp [addLiqSource]
  · cases trade.side <;> simp [addLiqSource]
  · cases trade.side <;> simp [addLiqSource]
  · cases trade.side <;> simp [addLiqSource]
  · intro h
    rw [h]
    exact ⟨rfl, rfl⟩
  · intro h
    rw [h]
    exact ⟨rfl, rfl⟩
  · intro k hk
    rw [hfold]
    exact alGet_alUpdate_ne _ _ _ _ hk
  · intro h
    rw [hfold]
    simp [h]
  · intro h
    rw [hfold]
    simp [h]

theorem nextBar_timestamp (A : List ActiveSerie) (ts : ℕ) (r : Renderer) :
    (nextBar A ts r).timestamp = ts :=
  rfl

theorem foldTradeIntoRenderer_timestamp (cfg : Cfg) (t : Trade) (r : Renderer) :
    (foldTradeIntoRenderer cfg t r).timestamp = r.timestamp := by
  unfold foldTradeIntoRenderer
  dsimp only
  split <;> rfl

theorem computeBarLive_timestamp (cfg : Cfg) (A : List ActiveSerie) (r : Renderer)
    (p : Points) (r' : Renderer) (e : List SerieErrorEvent)
    (h : computeBarLive cfg A r = .ok (p, r', e)) : r'.timestamp = r.timestamp := by
  unfold computeBarLive computeBar at h
  rcases hgo : computeBarGo none ((r.timestamp : ℚ) + (cfg.timezoneOffset : ℚ) / 1000) true r A
      ([], r.series, none, []) with e' | ⟨p2, m2, l2, e2⟩
  · rw [hgo] at h
    exact absurd h (by simp)
  · rw [hgo] at h
    simp only [Except.ok.injEq, Prod.mk.injEq] at h
    obtain ⟨-, h2, -⟩ := h
    rw [← h2]

theorem advanceRenderer_renderer (cfg : Cfg) (A : List ActiveSerie) (newTs : ℕ)
    (st : CState) (r : Renderer) (st' : CState) (pts : List Points)
    (h : advanceRenderer cfg A newTs st r = .ok (st', pts)) :
    ∃ r'', st'.activeRenderer = some r'' ∧ r''.timestamp = newTs := by
  unfold advanceRenderer at h
  simp only [Bind.bind, Except.bind, Pure.pure, Except.pure] at h
  repeat' split at h
  all_goals try exact Except.noConfusion h
  all_goals
    simp only [Except.ok.injEq, Prod.mk.injEq] at h
    obtain ⟨h1, -⟩ := h
    rw [← h1]
    exact ⟨_, rfl, nextBar_timestamp _ _ _⟩

theorem tradeStep_mono (cfg : Cfg) (A : List ActiveSerie) (st : CState) (fb : List Points)
    (t : Trade) (st1 : CState) (fb1 : List Points)
    (h : tradeStep cfg A (st, fb) t = .ok (st1, fb1)) :
    ∀ r, st.activeRenderer = some r →
      ∃ r1, st1.activeRenderer = some r1 ∧ r.timestamp ≤ r1.timestamp := by
  intro r hr
  unfold tradeStep at h
  simp only [Bind.bind, Except.bind, Pure.pure, Except.pure, hr] at h
  by_cases hlt : r.timestamp < bucketOf cfg t
  · rw [if_pos hlt] at h
    rcases hadv : advanceRenderer cfg A (bucketOf cfg t) st r with e | ⟨stA, ptsA⟩
    · rw [hadv] at h
      exact Except.noConfusion h
    · rw [hadv] at h
      dsimp only at h
      obtain ⟨rA, hrA, htsA⟩ := advanceRenderer_renderer cfg A _ st r stA ptsA hadv
      simp only [hrA] at h
      simp only [Except.ok.injEq, Prod.mk.injEq] at h
      obtain ⟨h1, -⟩ := h
      rw [← h1]
      refine ⟨_, rfl, ?_⟩
      rw [foldTradeIntoRenderer_timestamp, htsA]
      exact Nat.le_of_lt hlt
  · rw [if_neg hlt] at h
    try dsimp only at h
    try simp only [hr] at h
    simp only [Except.ok.injEq, Prod.mk.injEq] at h
    obtain ⟨h1, -⟩ := h
    rw [← h1]
    refine ⟨_, rfl, ?_⟩
    rw [foldTradeIntoRenderer_timestamp]

theorem foldlM_tradeStep_mono :
    ∀ (trades : List Trade) (cfg : Cfg) (A : List ActiveSerie) (st : CState) (fb : List Points)
      (st' : CState) (fb' : List Points),
      List.foldlM (tradeStep cfg A) (st, fb) trades = .ok (st', fb') →
      ∀ r, st.activeRenderer = some r →
        ∃ r', st'.activeRenderer = some r' ∧ r.timestamp ≤ r'.timestamp := by
  intro trades
  induction trades with
  | nil =>
    intro cfg A st fb st' fb' h r hr
    simp only [List.foldlM, Pure.pure, Except.pure, Except.ok.injEq, Prod.mk.injEq] at h
    obtain ⟨h1, -⟩ := h
    rw [← h1]
    exact ⟨r, hr, Nat.le_refl _⟩
  | cons t ts ih =>
    intro cfg A st fb st' fb' h r hr
    simp only [List.foldlM, Bind.bind, Except.bind] at h
    rcases hstep : tradeStep cfg A (st, fb) t with e | ⟨st1, fb1⟩
    · rw [hstep] at h
      exact absurd h (by simp)
    · rw [hstep] at h
      obtain ⟨r1, hr1, hle⟩ := tradeStep_mono cfg A st fb t st1 fb1 hstep r hr
      obtain ⟨r', hr', hle'⟩ := ih cfg A st1 fb1 st' fb' h r1 hr1
      exact ⟨r', hr', Nat.le_trans hle hle'⟩

/-- C3 (amended): the live renderer's bucket timestamp never decreases
across `renderRealtimeTrades`; but a trade whose bucket timestamp is
strictly older than the live bucket is not dropped — it is folded into the
current bucket's SourceBar and (when active) CombinedBar exactly like an
in-bucket trade, leaving the bucket timestamp unchanged. -/
theorem c3_monotone_but_old_trades_fold :
    (∀ (cfg : Cfg) (A : List ActiveSerie) (trades : List Trade) (st st' : CState)
        (fb : List Points),
      renderRealtimeTrades cfg A trades st = .ok (st', fb) →
      ∀ r r', st.activeRenderer = some r → st'.activeRenderer = some r' →
        r.timestamp ≤ r'.timestamp) ∧
    (∀ (cfg : Cfg) (A : List ActiveSerie) (st : CState) (fb : List Points)
        (trade : Trade) (r : Renderer),
      st.activeRenderer = some r →
      bucketOf cfg trade < r.timestamp →
      tradeStep cfg A (st, fb) trade =
        .ok ({ st with activeRenderer := some (foldTradeIntoRenderer cfg trade r) }, fb) ∧
      (foldTradeIntoRenderer cfg trade r).timestamp = r.timestamp) := by
  constructor
  · intro cfg A trades st st' fb h r r' hr hr'
    unfold renderRealtimeTrades at h
    simp only [Bind.bind, Except.bind, Pure.pure, Except.pure] at h
    by_cases hemp : trades.isEmpty
    · rw [if_pos hemp] at h
      simp only [Except.ok.injEq, Prod.mk.injEq] at h
      obtain ⟨h1, -⟩ := h
      rw [← h1] at hr'
      rw [hr'] at hr
      exact (Option.some.inj hr) ▸ Nat.le_refl _
    · rw [if_neg hemp] at h
      rcases hfold : List.foldlM (tradeStep cfg A) (st, []) trades with e | ⟨st1, fb1⟩
      · rw [hfold] at h
        exact absurd h (by simp)
      · rw [hfold] at h
        try dsimp only at h
        obtain ⟨r1, hr1, hle⟩ := foldlM_tradeStep_mono trades cfg A st [] st1 fb1 hfold r hr
        simp only [hr1] at h
        by_cases hbe : r1.bar.empty = some true
        · rw [if_pos hbe] at h
          simp only [Except.ok.injEq, Prod.mk.injEq] at h
          obtain ⟨h1, -⟩ := h
          rw [← h1] at hr'
          rw [hr1] at hr'
          exact (Option.some.inj hr') ▸ hle
        · rw [if_neg hbe] at h
          rcases hcb : computeBarLive cfg A r1 with e | ⟨points, r2, errs⟩
          · rw [hcb] at h
            exact absurd h (by simp)
          · rw [hcb] at h
            try dsimp only at h
            have hts2 : r2.timestamp = r1.timestamp :=
              computeBarLive_timestamp cfg A r1 points r2 errs hcb
            split at h <;>
              (simp only [Except.ok.injEq, Prod.mk.injEq] at h
               obtain ⟨h1, -⟩ := h
               rw [← h1] at hr'
               simp only at hr'
               rw [Option.some.inj hr'] at *
               omega)
  · intro cfg A st fb trade r hr hlt
    have hadv : ¬ r.timestamp < bucketOf cfg trade := Nat.lt_asymm hlt
    constructor
    · simp [tradeStep, hr, hadv, Bind.bind, Except.bind, Pure.pure, Except.pure]
    · exact foldTradeIntoRenderer_timestamp cfg trade r

/-- Witness for C3 (amended): the old trade `tOld` (bucket 0) against the
live renderer `rC2` at bucket 60: the step succeeds, folds the trade, and
keeps the timestamp at 60; monotonicity applied to a concrete run. -/
theorem c3_witness :
    (∀ r r', stR.activeRenderer = some r →
      ∀ st' fb, renderRealtimeTrades cfgT [] [tOld] stR = .ok (st', fb) →
        st'.activeRenderer = some r' → r.timestamp ≤ r'.timestamp) ∧
    (tradeStep cfgT [] (stR, []) tOld =
        .ok ({ stR with activeRenderer := some (foldTradeIntoRenderer cfgT tOld rC2) }, []) ∧
      (foldTradeIntoRenderer cfgT tOld rC2).timestamp = rC2.timestamp) :=
  ⟨fun r r' hr st' fb hrun hr' =>
      c3_monotone_but_old_trades_fold.1 cfgT [] [tOld] stR st' fb hrun r r' hr hr',
    c3_monotone_but_old_trades_fold.2 cfgT [] stR [] tOld rC2 rfl
      (by norm_num [bucketOf, tOld, cfgT, rC2])⟩

/-- C3 (counterexample to the claim as stated): after trades at buckets 0
and 60 the live CombinedBar at bucket 60 holds vbuy 101; appending the
strictly older trade `tOld` (bucket 0 < 60) changes it to 201 while the
bucket stays 60 — the old trade is folded into the live bucket, not
dropped. -/
theorem c3_counterexample :
    ((renderRealtimeTrades cfgT [] [tA, tA2] st0).toOption.map (fun p =>
        p.1.activeRenderer.map (fun r => (r.timestamp, r.bar.vbuy)))) =
      some (some (60, 101)) ∧
    ((renderRealtimeTrades cfgT [] [tA, tA2, tOld] st0).toOption.map (fun p =>
        p.1.activeRenderer.map (fun r => (r.timestamp, r.bar.vbuy)))) =
      some (some (60, 201)) ∧
    bucketOf cfgT tOld = 0 := by
  refine ⟨?_, ?_, ?_⟩ <;>
    norm_num +decide [renderRealtimeTrades, tradeStep, advanceRenderer, chunkManagement,
      computeBarLive, computeBar, computeBarGo, computeSerieStep, List.foldlM, nextBar,
      resetRendererBar, resetBar, nextBarSerieStep, foldTradeIntoRenderer, newSourceBar,
      applyTradeSource, applyTradeBar, addLiqSource, addLiqBar, tradeIdentifier, bucketOf,
      tradeAmount, cloneSourceBar, cloneChunkBar, alGet, alSet, alUpdate, alRemove, listModify,
      cfgT, st0, tA, tA2, tOld, valueOfPoint, emitPoint, Except.toOption, Bind.bind,
      Except.bind, Pure.pure, Except.pure, pushComputed]

/-- Witness for C8: a sell liquidation (price 10, size 2) on active source
`"A"` at bucket 0 while the live renderer sits at bucket 60. -/
theorem c8_witness :
    ∃ r', tradeStep cfgT [] (stR, []) tLiq = .ok ({ stR with activeRenderer := some r' }, []) ∧
      r'.timestamp = rC2.timestamp ∧
      alGet (tradeIdentifier tLiq) r'.sources =
        some (addLiqSource tLiq.side (tradeAmount tLiq)
          { exchange := "A", open_ := 100, high := 101, low := 99, close := 101
            vbuy := 100, vsell := 6, lbuy := 1, lsell := 2, cbuy := 3, csell := 4
            empty := false }) ∧
      (addLiqSource tLiq.side (tradeAmount tLiq)
          { exchange := "A", open_ := 100, high := 101, low := 99, close := 101
            vbuy := 100, vsell := 6, lbuy := 1, lsell := 2, cbuy := 3, csell := 4
            empty := false }).open_ = 100 ∧
      (cfgT.activeExchanges (tradeIdentifier tLiq) = true →
        r'.bar = addLiqBar tLiq.side (tradeAmount tLiq) rC2.bar) := by
  obtain ⟨r', h1, h2, h3, h4, _, _, _, _, _, _, _, _, _, _, hact, _⟩ :=
    c8_liquidation_frame cfgT [] stR [] tLiq rC2
      { exchange := "A", open_ := 100, high := 101, low := 99, close := 101
        vbuy := 100, vsell := 6, lbuy := 1, lsell := 2, cbuy := 3, csell := 4
        empty := false }
      rfl (by norm_num [bucketOf, tLiq, cfgT, rC2]) rfl (by rfl) rfl
  exact ⟨r', h1, h2, h3, h4, hact⟩

/-- C6: when a bound serie's adapter yields NaN on a closed bucket,
`computeBar` on the live renderer unbinds that serie (its renderer state is
deleted), surfaces a per-serie `SET_SERIE_ERROR` validation event, and
still evaluates every other bound serie of the same bucket — each keeps a
bound entry with its freshly computed point and a non-NaN value, and none
of them gets an error event. -/
theorem c6_nan_isolation (cfg : Cfg) (A B : List ActiveSerie) (sN : ActiveSerie) (r : Renderer)
    (hnodup : ((A ++ sN :: B).map ActiveSerie.id).Nodup)
    (hbound : ∀ s ∈ A ++ sN :: B, (alGet s.id r.series).isSome)
    (hN : alwaysNaN sN)
    (hok : ∀ s, s ∈ A ∨ s ∈ B → neverNaN s) :
    ∃ points r' errors, computeBar cfg (A ++ sN :: B) none r true none =
        .ok (points, r', none, errors) ∧
      alGet sN.id r'.series = none ∧
      (sN.id, some (sN.id ++ " is NaN")) ∈ errors ∧
      (∀ s, s ∈ A ∨ s ∈ B →
        ∃ d, alGet s.id r'.series = some d ∧ d.point.isSome ∧ d.value ≠ JSValue.nan) ∧
      (∀ s, s ∈ A ∨ s ∈ B → ∀ msg, (s.id, msg) ∉ errors) := by
  obtain ⟨P', M', E', hres, hK1, hKerr, hKnever, hKnan, hKomit⟩ :=
    computeBarGo_spec ((r.timestamp : ℚ) + (cfg.timezoneOffset : ℚ) / 1000) r
      (A ++ sN :: B) [] r.series [] hnodup hbound
  have hmemN : sN ∈ A ++ sN :: B := by simp
  have hmemL : ∀ s, s ∈ A ∨ s ∈ B → s ∈ A ++ sN :: B := by
    intro s hs
    rcases hs with h | h
    · exact List.mem_append_left _ h
    · exact List.mem_append_right _ (List.mem_cons_of_mem _ h)
  refine ⟨P', { r with series := M' }, E', ?_, (hKnan sN hmemN hN).1, (hKnan sN hmemN hN).2,
      ?_, ?_⟩
  · simp [computeBar, hres]
  · intro s hs
    exact hKnever s (hmemL s hs) (hok s hs)
  · intro s hs msg hmem
    obtain ⟨s', hs', he1, hnev⟩ := hKerr (s.id, msg) hmem
    have heq : s = s' :=
      List.inj_on_of_nodup_map hnodup (hmemL s hs) hs' (by simpa using he1)
    exact hnev (heq ▸ hok s hs)

/-- Witness for C6: series "sma" (always 5), "broken" (always NaN) and
"vol" (always 7), all bound to a live renderer: "broken" is unbound and
reported, while "sma" and "vol" are both evaluated. -/
theorem c6_witness :
    ∃ points r' errors, computeBar cfgT ([c6s1] ++ c6sn :: [c6s3]) none c6r true none =
        .ok (points, r', none, errors) ∧
      alGet c6sn.id r'.series = none ∧
      (c6sn.id, some (c6sn.id ++ " is NaN")) ∈ errors ∧
      (∀ s, s ∈ [c6s1] ∨ s ∈ [c6s3] →
        ∃ d, alGet s.id r'.series = some d ∧ d.point.isSome ∧ d.value ≠ JSValue.nan) ∧
      (∀ s, s ∈ [c6s1] ∨ s ∈ [c6s3] → ∀ msg, (s.id, msg) ∉ errors) :=
  c6_nan_isolation cfgT [c6s1] [c6s3] c6sn c6r
    (by simp [c6s1, c6sn, c6s3])
    (by
      intro s hs
      simp only [List.cons_append, List.nil_append, List.mem_cons, List.not_mem_nil,
        or_false] at hs
      rcases hs with rfl | rfl | rfl <;> rfl)
    (fun _ _ _ => rfl)
    (by
      intro s hs
      rcases hs with h | h <;> simp only [List.mem_singleton] at h <;> subst h <;>
        exact fun _ _ _ hval => JSValue.noConfusion hval)

/-- C10: a serie whose computed value is `null`, and a histogram serie
whose computed value is 0, leave no point in the map `computeBar` emits for
the bucket (`delete points[serie.id]`), so neither the incremental
`updateBar` pass nor the accumulated full-replace data ever receives a
point for it; the `Counter`'s own histogram serie skips its update the same
way when its value is 0. -/
theorem c10_point_omission :
    (∀ (cfg : Cfg) (L : List ActiveSerie) (s : ActiveSerie) (r : Renderer),
      (L.map ActiveSerie.id).Nodup →
      (∀ s' ∈ L, (alGet s'.id r.series).isSome) →
      s ∈ L →
      alwaysOmitted s →
      ∃ points r' errors, computeBar cfg L none r true none = .ok (points, r', none, errors) ∧
        alGet s.id points = none ∧
        s.id ∉ updateBarEmits L points) ∧
    (∀ (hasSerie : Bool) (cs : Counter.State), Counter.getValue cs = 0 →
      Counter.updateSerie hasSerie "histogram" cs = none) := by
  constructor
  · intro cfg L s r hnodup hbound hs homit
    obtain ⟨P', M', E', hres, hK1, hKerr, hKnever, hKnan, hKomit⟩ :=
      computeBarGo_spec ((r.timestamp : ℚ) + (cfg.timezoneOffset : ℚ) / 1000) r
        L [] r.series [] hnodup hbound
    refine ⟨P', { r with series := M' }, E', by simp [computeBar, hres],
      hKomit s hs homit, ?_⟩
    intro hmem
    rw [updateBarEmits, List.mem_map] at hmem
    obtain ⟨a, ha, hid⟩ := hmem
    rw [List.mem_filter] at ha
    have hsome := ha.2
    rw [hid, hKomit s hs homit] at hsome
    simp at hsome
  · intro hasSerie cs h
    have hl : cs.live = 0 := h
    simp [Counter.updateSerie, Counter.getValue, hl]

/-- Witness for C10: "nuller" (always null) and "hzero" (histogram, always
0) both bound: each is absent from the emitted point map and from the
`updateBar` emissions; and a cleared counter (value 0) of histogram type
skips its serie update. -/
theorem c10_witness :
    (∃ points r' errors,
        computeBar cfgT [c10null, c10hist] none c10r true none =
          .ok (points, r', none, errors) ∧
        alGet c10null.id points = none ∧
        c10null.id ∉ updateBarEmits [c10null, c10hist] points) ∧
    (∃ points r' errors,
        computeBar cfgT [c10null, c10hist] none c10r true none =
          .ok (points, r', none, errors) ∧
        alGet c10hist.id points = none ∧
        c10hist.id ∉ updateBarEmits [c10null, c10hist] points) ∧
    Counter.updateSerie true "histogram" Counter.clear = none :=
  ⟨c10_point_omission.1 cfgT [c10null, c10hist] c10null c10r
      (by simp [c10null, c10hist])
      (by
        intro s hs
        simp only [List.mem_cons, List.not_mem_nil, or_false] at hs
        rcases hs with rfl | rfl <;> rfl)
      (by simp)
      (fun _ _ _ => Or.inl rfl),
    c10_point_omission.1 cfgT [c10null, c10hist] c10hist c10r
      (by simp [c10null, c10hist])
      (by
        intro s hs
        simp only [List.mem_cons, List.not_mem_nil, or_false] at hs
        rcases hs with rfl | rfl <;> rfl)
      (by simp)
      (fun _ _ _ => Or.inr ⟨rfl, rfl⟩),
    c10_point_omission.2 true Counter.clear rfl⟩

/-- Witness for C9: with visible range [1500, 1700], logical offset 0 and
60 s buckets, the archived chunk ending at 300 is deselected
(300 is not above 1500 − 20·60 = 300) while the active chunk ending at 600
is selected, and the bar feed is exactly the selected chunk's bars. -/
theorem c9_witness :
    ((renderVisibleChunks cfgT (some { from_ := 1500, to_ := 1700 }) 0 [ckA, ckB]).1 =
        [ckA, ckB].map (fun c =>
          { c with rendered := rvcSelected cfgT (some { from_ := 1500, to_ := 1700 }) 0 c }) ∧
      (renderVisibleChunks cfgT (some { from_ := 1500, to_ := 1700 }) 0 [ckA, ckB]).2 =
        (((renderVisibleChunks cfgT (some { from_ := 1500, to_ := 1700 }) 0 [ckA, ckB]).1.filter
          (fun c => c.rendered)).flatMap Chunk.bars) ∧
      (∀ c : Chunk, rvcSelected cfgT (some { from_ := 1500, to_ := 1700 }) 0 c = true ↔
        ((some { from_ := 1500, to_ := 1700 } : Option TimeRange) = none ∨
          ∃ v, (some { from_ := 1500, to_ := 1700 } : Option TimeRange) = some v ∧
            rvcRangeStart cfgT v.from_ 0 - (cfgT.timeframe : ℚ) * 20 < (c.to_ : ℚ)))) ∧
    ((renderVisibleChunks cfgT (some { from_ := 1500, to_ := 1700 }) 0 [ckA, ckB]).1.map
        Chunk.rendered = [false, true] ∧
      (renderVisibleChunks cfgT (some { from_ := 1500, to_ := 1700 }) 0 [ckA, ckB]).2 = ckB.bars) :=
  ⟨c9_chunk_selection cfgT (some { from_ := 1500, to_ := 1700 }) 0 [ckA, ckB] (by simp),
    by norm_num [renderVisibleChunks, rvcPass, rvcSelected, rvcRangeStart, cfgT, ckA, ckB]⟩

end AggrModel
